import Mathlib

/-!
# sre-mini: a shallow embedding of `main.go`

The service is a single Go file: an HTTP mux with ten routes, two handler
wrappers (`instrument`, `logMiddleware`), a status-capturing `respWriter`, a
busy loop (`burnCPU`) and the signal-driven shutdown path of `main`.

Modelling decisions

* Mutation through pointers is explicit state passing: a handler receives the
  writer and the process state and returns both.
* `time.Now()` reads the next element of a stream of clock readings
  (nanoseconds); `time.Since(start)` is such a reading minus `start`.
* The metric vectors are functions from label values to the series value; the
  histogram keeps the observed durations (in nanoseconds, the conversion to
  float seconds is not modelled); the gauge and the counters are integers.
* `net/http` and the Prometheus client are libraries: the connection writer
  is a recorder of the calls it takes, and the status line it sends is the one
  Go documents (first `WriteHeader` that is not a 1xx interim response, or 200
  on the first `Write` or `Flush`); `WriteHeader` panics on a code outside
  100..999 while the header is unsent. The line `net/http` logs for a
  superfluous `WriteHeader` is not recorded.
* Label values and paths are Lean strings.
* The loop of `burnCPU` takes fuel; a handler whose loop outlives the fuel is
  reported as still spinning, and nothing after the loop has happened.
* Requests are atomic steps, interleaved with the statements of the main
  goroutine; the only state they share is read or written by single atomic
  operations.
-/

namespace SreMini

/-! ## Data model -/

/-- Values stored in the `map[string]any` response bodies. -/
inductive JVal
  | bool (b : Bool)
  | str (s : String)
  | time (t : Int)
  deriving DecidableEq, Repr

/-- What a handler hands to `Write`. `json` is one `Encode` call (keys in the
sorted order `encoding/json` uses for maps); `exposition` is the body produced
by `promhttp.Handler()`, kept abstract. -/
inductive Payload
  | text (s : String)
  | json (fields : List (String × JVal))
  | exposition
  deriving DecidableEq, Repr

/-- A method call arriving at an `http.ResponseWriter`. -/
inductive Call
  | setHeader (k v : String)
  | writeHeader (code : Int)
  | write (p : Payload)
  | flush
  deriving DecidableEq, Repr

/-- An informational status code: `net/http` sends it as an interim response
and keeps waiting for the final status. 101 is final. -/
def isInterim (c : Int) : Bool :=
  decide (100 ≤ c) && decide (c ≤ 199) && decide (c ≠ 101)

/-- A status code `net/http` accepts; `WriteHeader` panics on any other when
the header has not been sent yet. -/
def isValid (c : Int) : Bool :=
  decide (100 ≤ c) && decide (c ≤ 999)

/-- A code that becomes the status of the response: 101 or 200..999. -/
def isFinal (c : Int) : Bool :=
  isValid c && !isInterim c

/-- Whether the final status line has gone out, given the calls a connection
writer has taken so far: after the first `WriteHeader` that is not interim,
or the first `Write` or `Flush`. -/
def headerSent : List Call → Bool
  | [] => false
  | Call.writeHeader c :: rest => if isInterim c then headerSent rest else true
  | Call.write _ :: _ => true
  | Call.flush :: _ => true
  | Call.setHeader _ _ :: rest => headerSent rest

/-- Values of interface type `http.ResponseWriter` that occur in the program:
the writer of the connection (owned by `net/http`; it records the calls that
reach it and may or may not implement `http.Flusher`), and `*respWriter`,
which embeds another writer and carries `code`. -/
inductive Writer
  | conn (flusher : Bool) (calls : List Call)
  | resp (ResponseWriter : Writer) (code : Int)
  deriving DecidableEq, Repr

namespace Writer

/-- Method `Header().Set(k, v)`: promoted through the embedded field of `respWriter`. -/
def SetHeader : Writer → String → String → Writer
  | conn f cs, k, v => conn f (cs ++ [Call.setHeader k v])
  | resp inner code, k, v => resp (SetHeader inner k v) code

/-- Method `Write`: `respWriter` declares no `Write`, so the embedded one is used. -/
def Write : Writer → Payload → Writer
  | conn f cs, p => conn f (cs ++ [Call.write p])
  | resp inner code, p => resp (Write inner p) code

/-- The call `WriteHeader(c)` panics: the connection writer of `net/http`
checks the code when the header has not been sent yet, and a `respWriter`
passes the call on. -/
def rejects : Writer → Int → Bool
  | conn _ cs, c => !headerSent cs && !isValid c
  | resp inner _, c => rejects inner c

/-- Method `WriteHeader`; for `respWriter` (main.go 194-197): `r.code = statusCode`
and then the embedded writer's `WriteHeader`. The connection writer takes the
call unless it panics on the code; `rejects` tells the caller that it did. -/
def WriteHeader : Writer → Int → Writer
  | conn f cs, c =>
    if !headerSent cs && !isValid c then conn f cs else conn f (cs ++ [Call.writeHeader c])
  | resp inner _, c => resp (WriteHeader inner c) c

/-- The type assertion `w.(http.Flusher)` succeeds. `*respWriter` always has a
`Flush` method. -/
def isFlusher : Writer → Bool
  | conn f _ => f
  | resp _ _ => true

/-- Method `Flush`; for `respWriter` (main.go 189-193) the call is forwarded only
when the embedded writer is itself a Flusher. On a connection writer that is
no Flusher the method does not exist and nothing is recorded. -/
def Flush : Writer → Writer
  | conn f cs => if f then conn f (cs ++ [Call.flush]) else conn f cs
  | resp inner code => if isFlusher inner then resp (Flush inner) code else resp inner code

/-- The field `rw.code`. -/
def code : Writer → Int
  | conn _ _ => 200
  | resp _ c => c

/-- The field `rw.ResponseWriter`: the writer a `respWriter` was built around. -/
def unwrap : Writer → Writer
  | conn f cs => conn f cs
  | resp inner _ => inner

/-- The calls that reached the connection writer at the bottom of the stack. -/
def calls : Writer → List Call
  | conn _ cs => cs
  | resp inner _ => calls inner

end Writer

/-- The status line `net/http` sends for the calls a connection writer took:
the code of the first `WriteHeader` that is not interim, or 200 when a `Write`
(or `Flush`) comes first or the handler finishes without any of them. -/
def sentStatus : List Call → Int
  | [] => 200
  | Call.writeHeader c :: rest => if isInterim c then sentStatus rest else c
  | Call.write _ :: _ => 200
  | Call.flush :: _ => 200
  | Call.setHeader _ _ :: rest => sentStatus rest

/-- The payloads written, in order. -/
def bodyOf : List Call → List Payload
  | [] => []
  | Call.write p :: rest => p :: bodyOf rest
  | _ :: rest => bodyOf rest

/-- An incoming request: only the path selects the route. -/
structure Request where
  path : String
  method : String
  deriving DecidableEq, Repr

/-- Lines written with `log.Printf`. -/
inductive LogLine
  | request (path method : String) (code : Int) (ms : Int)
  | message (text : String)
  deriving DecidableEq, Repr

/-- The mutable state of the process. -/
structure Proc where
  /-- The variable `ready` of type int32. -/
  ready : Int
  /-- The counter vector `reqTotal`, by `path` and `code`. -/
  reqTotal : String → String → Nat
  /-- The histogram vector `reqLatency`, by `path`: the observations, oldest first. -/
  reqLatency : String → List Int
  /-- The gauge `inFlight`. -/
  inFlight : Int
  /-- Lines written by the standard logger. -/
  log : List LogLine
  /-- The readings `time.Now()` will return. -/
  clock : Nat → Int
  /-- Index of the next reading. -/
  tick : Nat
  /-- Exit status once `os.Exit` ran or `main` returned. -/
  exited : Option Nat

/-- State at the start of `main`: `ready = 1`, all instruments at zero. -/
def Proc.init (clock : Nat → Int) : Proc :=
  { ready := 1, reqTotal := fun _ _ => 0, reqLatency := fun _ => [], inFlight := 0,
    log := [], clock := clock, tick := 0, exited := none }

/-- The call `time.Now()`. -/
def Proc.now (s : Proc) : Int × Proc :=
  (s.clock s.tick, { s with tick := s.tick + 1 })

/-- The call `WithLabelValues(path, code).Inc()` on a counter vector. -/
def incCounter (f : String → String → Nat) (path code : String) : String → String → Nat :=
  fun p c => if p = path ∧ c = code then f p c + 1 else f p c

/-- The call `WithLabelValues(path).Observe(d)` on a histogram vector. -/
def observe (f : String → List Int) (path : String) (d : Int) : String → List Int :=
  fun p => if p = path then f p ++ [d] else f p

/-- How a handler invocation ends. `spinning` is a handler still inside its
busy loop when the fuel of the model is used up. -/
inductive Outcome
  | returned
  | panicked
  | exited (status : Nat)
  | spinning
  deriving DecidableEq, Repr

/-- What a handler invocation leaves behind. -/
structure Result where
  outcome : Outcome
  w : Writer
  proc : Proc

/-- Go's `http.HandlerFunc`. -/
abbrev HandlerFunc := Writer → Request → Proc → Result

/-! ## `burnCPU` (main.go 42-52) -/

/-- One pass through the loop body, `uint64` arithmetic. -/
def mixStep (x : Nat) : Nat :=
  let x1 := (x * 1664525 + 1013904223) % 2 ^ 64
  if x1 % 7 = 0 then x1 ^^^ ((x1 <<< 13) % 2 ^ 64) else x1

/-- The `for time.Now().Before(deadline)` loop: `t` is the index of the next
clock reading, `x` the accumulator. Returns the index after the reading that
ended the loop, and the final accumulator. -/
def burnLoop (clock : Nat → Int) (deadline : Int) : Nat → Nat → Nat → Option (Nat × Nat)
  | 0, _, _ => none
  | fuel + 1, t, x =>
    if clock t < deadline then burnLoop clock deadline fuel (t + 1) (mixStep x)
    else some (t + 1, x)

/-- The function `burnCPU(d)`: `none` when the loop is still running after `fuel` tests. -/
def burnCPU (d : Int) (fuel : Nat) (s : Proc) : Option Proc :=
  let deadline := s.clock s.tick + d
  match burnLoop s.clock deadline fuel (s.tick + 1) 1 with
  | none => none
  | some (t, _) => some { s with tick := t }

/-! ## The wrappers (main.go 171-212) -/

/-- The wrapper `instrument(path, h)`: start time, the handler on a
`respWriter` with `code: 200`, then the observation and the increment. -/
def instrument (path : String) (h : HandlerFunc) : HandlerFunc := fun w r s =>
  let start := s.now.1
  let res := h (Writer.resp w 200) r s.now.2
  match res.outcome with
  | Outcome.returned =>
    let dur := res.proc.now.1 - start
    let p := res.proc.now.2
    ⟨Outcome.returned, res.w.unwrap,
      { p with reqLatency := observe p.reqLatency path dur,
               reqTotal := incCounter p.reqTotal path (toString res.w.code) }⟩
  | o => ⟨o, res.w.unwrap, res.proc⟩

/-- The wrapper `logMiddleware(next)`. The deferred `inFlight.Dec()` runs when the handler
returns or panics; `os.Exit` runs no deferred call. -/
def logMiddleware (next : HandlerFunc) : HandlerFunc := fun w r s =>
  let s1 := { s with inFlight := s.inFlight + 1 }
  let start := s1.now.1
  let res := next (Writer.resp w 200) r s1.now.2
  match res.outcome with
  | Outcome.returned =>
    let ms := (res.proc.now.1 - start).tdiv 1000000
    let p := res.proc.now.2
    ⟨Outcome.returned, res.w.unwrap,
      { p with log := p.log ++ [LogLine.request r.path r.method res.w.code ms],
               inFlight := p.inFlight - 1 }⟩
  | Outcome.panicked =>
    ⟨Outcome.panicked, res.w.unwrap, { res.proc with inFlight := res.proc.inFlight - 1 }⟩
  | o => ⟨o, res.w.unwrap, res.proc⟩

/-! ## Route handlers (main.go 59-137)

The codes `main` passes to `WriteHeader` (200, 503, and 500 and 404 through
`http.Error`) are valid, so these calls return (`Writer.rejects_valid`). -/

/-- The call `http.Error(w, msg, code)` of `net/http`: two header fields, the status,
then the message and a newline. The header deletions newer library versions
add in front are left out. -/
def httpError (w : Writer) (msg : String) (code : Int) : Writer :=
  let w1 := w.SetHeader "Content-Type" "text/plain; charset=utf-8"
  let w2 := w1.SetHeader "X-Content-Type-Options" "nosniff"
  let w3 := w2.WriteHeader code
  w3.Write (Payload.text (msg ++ "\n"))

/-- Handler of `/healthz`. -/
def healthz : HandlerFunc := fun w _ s =>
  let w1 := w.WriteHeader 200
  ⟨Outcome.returned, w1.Write (Payload.text "ok"), s⟩

/-- Handler of `/readyz`. -/
def readyz : HandlerFunc := fun w _ s =>
  if s.ready = 1 then
    let w1 := w.WriteHeader 200
    ⟨Outcome.returned, w1.Write (Payload.text "ready"), s⟩
  else
    let w1 := w.WriteHeader 503
    ⟨Outcome.returned, w1.Write (Payload.text "not-ready"), s⟩

/-- Handler of `/fail/ready`. -/
def failReady : HandlerFunc := fun w _ s =>
  let s1 := { s with ready := 0 }
  let w1 := w.WriteHeader 200
  ⟨Outcome.returned, w1.Write (Payload.text "readiness=false"), s1⟩

/-- Handler of `/recover/ready`. -/
def recoverReady : HandlerFunc := fun w _ s =>
  let s1 := { s with ready := 1 }
  let w1 := w.WriteHeader 200
  ⟨Outcome.returned, w1.Write (Payload.text "readiness=true"), s1⟩

/-- The function wrapped for `/panic`. -/
def panicInner : HandlerFunc := fun w _ s =>
  ⟨Outcome.returned, httpError w "intentional request failure" 500, s⟩

/-- Handler of `/crash`: the unchecked assertion `w.(http.Flusher)` panics on a writer
without `Flush`; otherwise the process ends with status 1. -/
def crash : HandlerFunc := fun w _ s =>
  let w1 := w.Write (Payload.text "crashing process\n")
  if w1.isFlusher then
    ⟨Outcome.exited 1, w1.Flush, { s with exited := some 1 }⟩
  else
    ⟨Outcome.panicked, w1, s⟩

/-- The function wrapped for `/work`. -/
def workInner : HandlerFunc := fun w _ s =>
  let t := s.now.1
  let s1 := s.now.2
  let w1 := w.SetHeader "Content-Type" "application/json"
  ⟨Outcome.returned,
    w1.Write (Payload.json [("mode", JVal.str "fine"), ("ok", JVal.bool true),
      ("time", JVal.time t)]), s1⟩

/-- The function wrapped for `/work/cpu`; 1200 ms in nanoseconds. -/
def workCpuInner (fuel : Nat) : HandlerFunc := fun w _ s =>
  match burnCPU 1200000000 fuel s with
  | none => ⟨Outcome.spinning, w, s⟩
  | some s0 =>
    let t := s0.now.1
    let s1 := s0.now.2
    let w1 := w.SetHeader "Content-Type" "application/json"
    ⟨Outcome.returned,
      w1.Write (Payload.json [("burn", JVal.str "1200ms"), ("mode", JVal.str "cpu"),
        ("ok", JVal.bool true), ("time", JVal.time t)]), s1⟩

/-- The function wrapped for `/work/latency`. `time.Sleep` changes nothing in
the process state; the time that passes shows in the later clock readings. -/
def workLatencyInner : HandlerFunc := fun w _ s =>
  let t := s.now.1
  let s1 := s.now.2
  let w1 := w.SetHeader "Content-Type" "application/json"
  ⟨Outcome.returned,
    w1.Write (Payload.json [("delay", JVal.str "2s"), ("mode", JVal.str "latency"),
      ("ok", JVal.bool true), ("time", JVal.time t)]), s1⟩

/-- Handler of `/metrics`: `promhttp.Handler()` reads the instruments and writes them. -/
def metricsHandler : HandlerFunc := fun w _ s =>
  ⟨Outcome.returned, w.Write Payload.exposition, s⟩

/-- What `ServeMux` does for a path without a registered pattern. -/
def notFound : HandlerFunc := fun w _ s =>
  ⟨Outcome.returned, httpError w "404 page not found" 404, s⟩

/-- The route table built in `main`. Every pattern is a fixed path without a
trailing slash, so a pattern matches exactly its own path. -/
def mux (fuel : Nat) : HandlerFunc := fun w r s =>
  if r.path = "/healthz" then healthz w r s
  else if r.path = "/readyz" then readyz w r s
  else if r.path = "/fail/ready" then failReady w r s
  else if r.path = "/recover/ready" then recoverReady w r s
  else if r.path = "/panic" then instrument "/panic" panicInner w r s
  else if r.path = "/crash" then crash w r s
  else if r.path = "/work" then instrument "/work" workInner w r s
  else if r.path = "/work/cpu" then instrument "/work/cpu" (workCpuInner fuel) w r s
  else if r.path = "/work/latency" then instrument "/work/latency" workLatencyInner w r s
  else if r.path = "/metrics" then metricsHandler w r s
  else notFound w r s

/-! ## The server -/

/-- One request handled by `srv` (`Handler: logMiddleware(mux)`): `net/http`
supplies a fresh connection writer, which implements `http.Flusher`, and
recovers and logs a panic of the handler. A process that has exited serves
nothing. -/
def serve (fuel : Nat) (r : Request) (s : Proc) : Result :=
  match s.exited with
  | some n => ⟨Outcome.exited n, Writer.conn true [], s⟩
  | none =>
    let res := logMiddleware (mux fuel) (Writer.conn true []) r s
    match res.outcome with
    | Outcome.panicked =>
      ⟨Outcome.panicked, res.w,
        { res.proc with log := res.proc.log ++ [LogLine.message "http: panic serving"] }⟩
    | _ => res

/-- Status line and body of a completed exchange. -/
structure Response where
  status : Int
  body : List Payload
  deriving DecidableEq, Repr

/-- The response the client got, when the handler returned. -/
def Result.response (res : Result) : Option Response :=
  match res.outcome with
  | Outcome.returned => some ⟨sentStatus res.w.calls, bodyOf res.w.calls⟩
  | _ => none

/-- The state after a sequence of requests, served one after the other. -/
def serveAll (fuel : Nat) : List Request → Proc → Proc
  | [], s => s
  | r :: rest, s => serveAll fuel rest (serve fuel r s).proc

/-! ## The lifecycle of `main` after the signal (main.go 156-169) -/

/-- Where the main goroutine stands. -/
inductive MainPc
  | waiting
  | logStart
  | storeReady
  | callShutdown
  | inShutdown
  | logDone
  | returned
  deriving DecidableEq, Repr

/-- What can happen next: a signal is delivered, the main goroutine runs its
next statement (`err` says whether a pending `srv.Shutdown` returns an
error), or a request is served. -/
inductive Event
  | signal
  | main (err : Bool)
  | request (fuel : Nat) (r : Request)
  deriving DecidableEq, Repr

/-- Process state together with the position of the main goroutine. -/
structure Sys where
  pc : MainPc
  proc : Proc
  /-- Whether `srv.Shutdown` has been called. -/
  shutdownRequested : Bool

/-- The serving state: main blocked on `<-stop`. -/
def Sys.init (clock : Nat → Int) : Sys :=
  { pc := MainPc.waiting, proc := Proc.init clock, shutdownRequested := false }

/-- The next statement of the main goroutine. -/
def Sys.mainStep (st : Sys) (err : Bool) : Sys :=
  match st.pc with
  | MainPc.waiting => st
  | MainPc.logStart =>
    { st with pc := MainPc.storeReady,
              proc := { st.proc with log := st.proc.log ++ [LogLine.message "shutdown started"] } }
  | MainPc.storeReady =>
    { st with pc := MainPc.callShutdown, proc := { st.proc with ready := 0 } }
  | MainPc.callShutdown =>
    { st with pc := MainPc.inShutdown, shutdownRequested := true }
  | MainPc.inShutdown =>
    if err then
      { st with pc := MainPc.logDone,
                proc := { st.proc with log := st.proc.log ++ [LogLine.message "shutdown error"] } }
    else { st with pc := MainPc.logDone }
  | MainPc.logDone =>
    { st with pc := MainPc.returned,
              proc := { st.proc with log := st.proc.log ++ [LogLine.message "shutdown complete"],
                                     exited := some 0 } }
  | MainPc.returned => st

/-- One event. Nothing happens in a process that has exited. -/
def Sys.step (st : Sys) (ev : Event) : Sys :=
  match st.proc.exited with
  | some _ => st
  | none =>
    match ev with
    | Event.signal =>
      match st.pc with
      | MainPc.waiting => { st with pc := MainPc.logStart }
      | _ => st
    | Event.main err => st.mainStep err
    | Event.request fuel r => { st with proc := (serve fuel r st.proc).proc }

/-- A sequence of events. -/
def Sys.run (st : Sys) (evs : List Event) : Sys :=
  evs.foldl Sys.step st

/-! ## Arbitrary inner handlers -/

/-- The body of a handler as a tree of the steps it takes: calls on the writer
it is given (header mutations, status, body, the test for `http.Flusher`,
flush), reading the process state (the flag, the clock, the instruments) and
changing it, and the ways to end: return, panic, `os.Exit`, or never. -/
inductive Prog
  | ret
  | panics
  | osExit (status : Nat)
  | spin
  | setHeader (k v : String) (next : Prog)
  | writeHeader (code : Int) (next : Prog)
  | write (p : Payload) (next : Prog)
  | ifFlusher (yes no : Prog)
  | flush (next : Prog)
  | withProc (k : Proc → Prog)
  | modify (f : Proc → Proc) (next : Prog)

/-- Running the steps against a writer and a process state. `flush` is
`w.(http.Flusher).Flush()`, which panics on a writer without the method;
`writeHeader` panics when the connection does. -/
def Prog.run : Prog → Writer → Proc → Result
  | Prog.ret, w, s => ⟨Outcome.returned, w, s⟩
  | Prog.panics, w, s => ⟨Outcome.panicked, w, s⟩
  | Prog.osExit n, w, s => ⟨Outcome.exited n, w, { s with exited := some n }⟩
  | Prog.spin, w, s => ⟨Outcome.spinning, w, s⟩
  | Prog.setHeader k v next, w, s => next.run (w.SetHeader k v) s
  | Prog.writeHeader c next, w, s =>
    if w.rejects c then ⟨Outcome.panicked, w.WriteHeader c, s⟩
    else next.run (w.WriteHeader c) s
  | Prog.write p next, w, s => next.run (w.Write p) s
  | Prog.ifFlusher yes no, w, s => if w.isFlusher then yes.run w s else no.run w s
  | Prog.flush next, w, s =>
    if w.isFlusher then next.run w.Flush s else ⟨Outcome.panicked, w, s⟩
  | Prog.withProc k, w, s => (k s).run w s
  | Prog.modify f next, w, s => next.run w (f s)

/-- The handler whose body for request `r` is `h r`. -/
def Prog.handler (h : Request → Prog) : HandlerFunc := fun w r s =>
  (h r).run w s

/-- The handler that makes the given calls in order and returns; it flushes
after the checked assertion, the way `respWriter.Flush` does. -/
def Prog.ofCalls : List Call → Prog
  | [] => Prog.ret
  | Call.writeHeader c :: rest => Prog.writeHeader c (Prog.ofCalls rest)
  | Call.write p :: rest => Prog.write p (Prog.ofCalls rest)
  | Call.setHeader k v :: rest => Prog.setHeader k v (Prog.ofCalls rest)
  | Call.flush :: rest => Prog.ifFlusher (Prog.flush (Prog.ofCalls rest)) (Prog.ofCalls rest)

/-- The body of the function wrapped for `/panic`, as steps. -/
def panicProg : Prog :=
  Prog.setHeader "Content-Type" "text/plain; charset=utf-8"
    (Prog.setHeader "X-Content-Type-Options" "nosniff"
      (Prog.writeHeader 500
        (Prog.write (Payload.text ("intentional request failure" ++ "\n")) Prog.ret)))

/-- The body of the function wrapped for `/work`, as steps. -/
def workProg : Prog :=
  Prog.withProc fun s =>
    Prog.modify (fun p => p.now.2)
      (Prog.setHeader "Content-Type" "application/json"
        (Prog.write (Payload.json [("mode", JVal.str "fine"), ("ok", JVal.bool true),
          ("time", JVal.time s.now.1)]) Prog.ret))

/-- The body of the function wrapped for `/work/cpu`, as steps. -/
def workCpuProg (fuel : Nat) : Prog :=
  Prog.withProc fun s =>
    match burnCPU 1200000000 fuel s with
    | none => Prog.spin
    | some s0 =>
      Prog.modify (fun _ => s0.now.2)
        (Prog.setHeader "Content-Type" "application/json"
          (Prog.write (Payload.json [("burn", JVal.str "1200ms"), ("mode", JVal.str "cpu"),
            ("ok", JVal.bool true), ("time", JVal.time s0.now.1)]) Prog.ret))

/-- The body of the function wrapped for `/work/latency`, as steps. -/
def workLatencyProg : Prog :=
  Prog.withProc fun s =>
    Prog.modify (fun p => p.now.2)
      (Prog.setHeader "Content-Type" "application/json"
        (Prog.write (Payload.json [("delay", JVal.str "2s"), ("mode", JVal.str "latency"),
          ("ok", JVal.bool true), ("time", JVal.time s.now.1)]) Prog.ret))

/-! ## Auxiliary definitions for the statements -/

/-- The state the wrapped handler of `logMiddleware` is started in. -/
def entered (s : Proc) : Proc :=
  ({ s with inFlight := s.inFlight + 1 } : Proc).now.2

/-- The last `/fail/ready` of the sequence has no `/recover/ready` after it. -/
def FailedLast (pre : List Request) : Prop :=
  ∃ a f b, pre = a ++ f :: b ∧ f.path = "/fail/ready" ∧
    ∀ x ∈ b, x.path ≠ "/fail/ready" ∧ x.path ≠ "/recover/ready"

/-- The value of `rw.code` after the calls, starting from `c`: the argument of
the last `WriteHeader`. -/
def lastHeader : List Call → Int → Int
  | [], c => c
  | Call.writeHeader k :: rest, _ => lastHeader rest k
  | _ :: rest, c => lastHeader rest c

/-- No `WriteHeader` among the calls. -/
def noHeader : List Call → Bool
  | [] => true
  | Call.writeHeader _ :: _ => false
  | _ :: rest => noHeader rest

/-- The handler calls `WriteHeader` at most once, and not after a `Write` or
a `Flush`. -/
def headerOnce : List Call → Bool
  | [] => true
  | Call.setHeader _ _ :: rest => headerOnce rest
  | _ :: rest => noHeader rest

/-- Every code the handler passes to `WriteHeader` is a final status code. -/
def finalCodes : List Call → Bool
  | [] => true
  | Call.writeHeader c :: rest => isFinal c && finalCodes rest
  | _ :: rest => finalCodes rest

/-- The calls that arrive at a connection writer: a `Flush` is dropped by
`respWriter.Flush` when the connection has no such method. -/
def reach (fl : Bool) : List Call → List Call
  | [] => []
  | Call.flush :: rest => if fl then Call.flush :: reach fl rest else reach fl rest
  | c :: rest => c :: reach fl rest

/-- One request to a route registered as `instrument("/x", h)`, served by
`logMiddleware` on a fresh connection in the initial state. -/
def serveWith (h : HandlerFunc) : Result :=
  logMiddleware (instrument "/x" h) (Writer.conn true []) ⟨"/x", "GET"⟩ (Proc.init fun n => n)

/-- The main goroutine is past the store to `ready`. -/
def MainPc.late : MainPc → Bool
  | MainPc.callShutdown => true
  | MainPc.inShutdown => true
  | MainPc.logDone => true
  | MainPc.returned => true
  | _ => false

/-! # Theorems -/

/-! ## Basic facts about the wrappers -/

theorem instrument_returned (path : String) (h : HandlerFunc) (w : Writer) (r : Request)
    (s : Proc) (hres : (h (Writer.resp w 200) r s.now.2).outcome = Outcome.returned) :
    instrument path h w r s =
      ⟨Outcome.returned, (h (Writer.resp w 200) r s.now.2).w.unwrap,
        { (h (Writer.resp w 200) r s.now.2).proc.now.2 with
          reqLatency := observe (h (Writer.resp w 200) r s.now.2).proc.reqLatency path
            ((h (Writer.resp w 200) r s.now.2).proc.now.1 - s.now.1),
          reqTotal := incCounter (h (Writer.resp w 200) r s.now.2).proc.reqTotal path
            (toString (h (Writer.resp w 200) r s.now.2).w.code) }⟩ := by
  unfold instrument
  simp only [hres]
  rfl

theorem instrument_other (path : String) (h : HandlerFunc) (w : Writer) (r : Request)
    (s : Proc) (hres : (h (Writer.resp w 200) r s.now.2).outcome ≠ Outcome.returned) :
    instrument path h w r s =
      ⟨(h (Writer.resp w 200) r s.now.2).outcome, (h (Writer.resp w 200) r s.now.2).w.unwrap,
        (h (Writer.resp w 200) r s.now.2).proc⟩ := by
  unfold instrument
  cases ho : (h (Writer.resp w 200) r s.now.2).outcome <;> simp_all

theorem instrument_outcome (path : String) (h : HandlerFunc) (w : Writer) (r : Request)
    (s : Proc) : (instrument path h w r s).outcome = (h (Writer.resp w 200) r s.now.2).outcome := by
  by_cases hres : (h (Writer.resp w 200) r s.now.2).outcome = Outcome.returned
  · rw [instrument_returned path h w r s hres, hres]
  · rw [instrument_other path h w r s hres]

theorem instrument_w (path : String) (h : HandlerFunc) (w : Writer) (r : Request)
    (s : Proc) : (instrument path h w r s).w = (h (Writer.resp w 200) r s.now.2).w.unwrap := by
  by_cases hres : (h (Writer.resp w 200) r s.now.2).outcome = Outcome.returned
  · rw [instrument_returned path h w r s hres]
  · rw [instrument_other path h w r s hres]

theorem logMiddleware_returned (next : HandlerFunc) (w : Writer) (r : Request) (s : Proc)
    (hres : (next (Writer.resp w 200) r (entered s)).outcome = Outcome.returned) :
    logMiddleware next w r s =
      ⟨Outcome.returned, (next (Writer.resp w 200) r (entered s)).w.unwrap,
        { (next (Writer.resp w 200) r (entered s)).proc.now.2 with
          log := (next (Writer.resp w 200) r (entered s)).proc.log ++
            [LogLine.request r.path r.method (next (Writer.resp w 200) r (entered s)).w.code
              (((next (Writer.resp w 200) r (entered s)).proc.now.1 - s.now.1).tdiv 1000000)],
          inFlight := (next (Writer.resp w 200) r (entered s)).proc.inFlight - 1 }⟩ := by
  unfold logMiddleware
  simp only [entered] at hres
  simp only [hres]
  rfl

theorem logMiddleware_panicked (next : HandlerFunc) (w : Writer) (r : Request) (s : Proc)
    (hres : (next (Writer.resp w 200) r (entered s)).outcome = Outcome.panicked) :
    logMiddleware next w r s =
      ⟨Outcome.panicked, (next (Writer.resp w 200) r (entered s)).w.unwrap,
        { (next (Writer.resp w 200) r (entered s)).proc with
          inFlight := (next (Writer.resp w 200) r (entered s)).proc.inFlight - 1 }⟩ := by
  unfold logMiddleware
  simp only [entered] at hres
  simp only [hres]
  rfl

theorem logMiddleware_other (next : HandlerFunc) (w : Writer) (r : Request) (s : Proc)
    (hr : (next (Writer.resp w 200) r (entered s)).outcome ≠ Outcome.returned)
    (hp : (next (Writer.resp w 200) r (entered s)).outcome ≠ Outcome.panicked) :
    logMiddleware next w r s =
      ⟨(next (Writer.resp w 200) r (entered s)).outcome,
        (next (Writer.resp w 200) r (entered s)).w.unwrap,
        (next (Writer.resp w 200) r (entered s)).proc⟩ := by
  unfold logMiddleware
  simp only [entered] at hr hp
  cases ho : (next (Writer.resp w 200) r
    ({ s with inFlight := s.inFlight + 1 } : Proc).now.2).outcome <;> simp_all [entered]

theorem logMiddleware_outcome (next : HandlerFunc) (w : Writer) (r : Request) (s : Proc) :
    (logMiddleware next w r s).outcome = (next (Writer.resp w 200) r (entered s)).outcome := by
  by_cases hr : (next (Writer.resp w 200) r (entered s)).outcome = Outcome.returned
  · rw [logMiddleware_returned next w r s hr, hr]
  · by_cases hp : (next (Writer.resp w 200) r (entered s)).outcome = Outcome.panicked
    · rw [logMiddleware_panicked next w r s hp, hp]
    · rw [logMiddleware_other next w r s hr hp]

theorem logMiddleware_w (next : HandlerFunc) (w : Writer) (r : Request) (s : Proc) :
    (logMiddleware next w r s).w = (next (Writer.resp w 200) r (entered s)).w.unwrap := by
  by_cases hr : (next (Writer.resp w 200) r (entered s)).outcome = Outcome.returned
  · rw [logMiddleware_returned next w r s hr]
  · by_cases hp : (next (Writer.resp w 200) r (entered s)).outcome = Outcome.panicked
    · rw [logMiddleware_panicked next w r s hp]
    · rw [logMiddleware_other next w r s hr hp]

/-- A field of the process state that neither wrapper writes is, after
`logMiddleware`, what the wrapped handler left. -/
theorem logMiddleware_field {α : Type} (f : Proc → α) (next : HandlerFunc) (w : Writer)
    (r : Request) (s : Proc)
    (hf : ∀ (p : Proc) (i : Int) (l : List LogLine) (t : Nat),
      f { p with inFlight := i, log := l, tick := t } = f p) :
    f (logMiddleware next w r s).proc = f (next (Writer.resp w 200) r (entered s)).proc := by
  by_cases hr : (next (Writer.resp w 200) r (entered s)).outcome = Outcome.returned
  · rw [logMiddleware_returned next w r s hr]
    exact hf (next (Writer.resp w 200) r (entered s)).proc _ _ _
  · by_cases hp : (next (Writer.resp w 200) r (entered s)).outcome = Outcome.panicked
    · rw [logMiddleware_panicked next w r s hp]
      exact hf (next (Writer.resp w 200) r (entered s)).proc _ _ _
    · rw [logMiddleware_other next w r s hr hp]

/-- A field of the process state that `instrument` does not write is what the
wrapped handler left. -/
theorem instrument_field {α : Type} (f : Proc → α) (path : String) (h : HandlerFunc)
    (w : Writer) (r : Request) (s : Proc)
    (hf : ∀ (p : Proc) (c : String → String → Nat) (l : String → List Int) (t : Nat),
      f { p with reqTotal := c, reqLatency := l, tick := t } = f p) :
    f (instrument path h w r s).proc = f (h (Writer.resp w 200) r s.now.2).proc := by
  by_cases hres : (h (Writer.resp w 200) r s.now.2).outcome = Outcome.returned
  · rw [instrument_returned path h w r s hres]
    exact hf (h (Writer.resp w 200) r s.now.2).proc _ _ _
  · rw [instrument_other path h w r s hres]

theorem workCpuInner_cases (fuel : Nat) (w : Writer) (r : Request) (s : Proc) :
    workCpuInner fuel w r s = ⟨Outcome.spinning, w, s⟩ ∨
      ∃ t : Nat, workCpuInner fuel w r s =
        ⟨Outcome.returned,
          (w.SetHeader "Content-Type" "application/json").Write
            (Payload.json [("burn", JVal.str "1200ms"), ("mode", JVal.str "cpu"),
              ("ok", JVal.bool true), ("time", JVal.time (s.clock t))]),
          { s with tick := t + 1 }⟩ := by
  unfold workCpuInner burnCPU
  cases hl : burnLoop s.clock (s.clock s.tick + 1200000000) fuel (s.tick + 1) 1 with
  | none => left; simp [hl]
  | some a => right; exact ⟨a.1, by simp [hl, Proc.now]⟩

/-- The route table, one case per pattern. -/
theorem mux_cases (fuel : Nat) (w : Writer) (r : Request) (s : Proc) :
    (r.path = "/healthz" ∧ mux fuel w r s = healthz w r s) ∨
    (r.path = "/readyz" ∧ mux fuel w r s = readyz w r s) ∨
    (r.path = "/fail/ready" ∧ mux fuel w r s = failReady w r s) ∨
    (r.path = "/recover/ready" ∧ mux fuel w r s = recoverReady w r s) ∨
    (r.path = "/panic" ∧ mux fuel w r s = instrument "/panic" panicInner w r s) ∨
    (r.path = "/crash" ∧ mux fuel w r s = crash w r s) ∨
    (r.path = "/work" ∧ mux fuel w r s = instrument "/work" workInner w r s) ∨
    (r.path = "/work/cpu" ∧ mux fuel w r s = instrument "/work/cpu" (workCpuInner fuel) w r s) ∨
    (r.path = "/work/latency" ∧
      mux fuel w r s = instrument "/work/latency" workLatencyInner w r s) ∨
    (r.path = "/metrics" ∧ mux fuel w r s = metricsHandler w r s) ∨
    (r.path ∉ ["/healthz", "/readyz", "/fail/ready", "/recover/ready", "/panic", "/crash",
        "/work", "/work/cpu", "/work/latency", "/metrics"] ∧
      mux fuel w r s = notFound w r s) := by
  by_cases h1 : r.path = "/healthz"
  · exact Or.inl ⟨h1, by simp [mux, h1]⟩
  by_cases h2 : r.path = "/readyz"
  · exact Or.inr (Or.inl ⟨h2, by simp [mux, h2]⟩)
  by_cases h3 : r.path = "/fail/ready"
  · exact Or.inr (Or.inr (Or.inl ⟨h3, by simp [mux, h3]⟩))
  by_cases h4 : r.path = "/recover/ready"
  · exact Or.inr (Or.inr (Or.inr (Or.inl ⟨h4, by simp [mux, h4]⟩)))
  by_cases h5 : r.path = "/panic"
  · exact Or.inr (Or.inr (Or.inr (Or.inr (Or.inl ⟨h5, by simp [mux, h5]⟩))))
  by_cases h6 : r.path = "/crash"
  · exact Or.inr (Or.inr (Or.inr (Or.inr (Or.inr (Or.inl ⟨h6, by simp [mux, h6]⟩)))))
  by_cases h7 : r.path = "/work"
  · exact Or.inr (Or.inr (Or.inr (Or.inr (Or.inr (Or.inr (Or.inl ⟨h7, by simp [mux, h7]⟩))))))
  by_cases h8 : r.path = "/work/cpu"
  · exact Or.inr (Or.inr (Or.inr (Or.inr (Or.inr (Or.inr (Or.inr
      (Or.inl ⟨h8, by simp [mux, h8]⟩)))))))
  by_cases h9 : r.path = "/work/latency"
  · exact Or.inr (Or.inr (Or.inr (Or.inr (Or.inr (Or.inr (Or.inr (Or.inr
      (Or.inl ⟨h9, by simp [mux, h9]⟩))))))))
  by_cases h10 : r.path = "/metrics"
  · exact Or.inr (Or.inr (Or.inr (Or.inr (Or.inr (Or.inr (Or.inr (Or.inr (Or.inr
      (Or.inl ⟨h10, by simp [mux, h10]⟩)))))))))
  · exact Or.inr (Or.inr (Or.inr (Or.inr (Or.inr (Or.inr (Or.inr (Or.inr (Or.inr
      (Or.inr ⟨by simp [h1, h2, h3, h4, h5, h6, h7, h8, h9, h10],
        by simp [mux, h1, h2, h3, h4, h5, h6, h7, h8, h9, h10]⟩)))))))))

/-- The inner handlers of the instrumented routes leave every field but the
clock index alone. -/
theorem inner_frame {α : Type} (f : Proc → α) (hf : ∀ (p : Proc) (t : Nat),
    f { p with tick := t } = f p) (fuel : Nat) (w : Writer) (r : Request) (s : Proc) :
    f (panicInner w r s).proc = f s ∧ f (workInner w r s).proc = f s ∧
      f (workCpuInner fuel w r s).proc = f s ∧ f (workLatencyInner w r s).proc = f s := by
  refine ⟨rfl, hf s _, ?_, hf s _⟩
  rcases workCpuInner_cases fuel w r s with h | ⟨t, h⟩
  · rw [h]
  · rw [h]; exact hf s _

theorem crash_resp (w : Writer) (c : Int) (r : Request) (s : Proc) :
    crash (Writer.resp w c) r s =
      ⟨Outcome.exited 1, ((Writer.resp w c).Write (Payload.text "crashing process\n")).Flush,
        { s with exited := some 1 }⟩ := by
  simp [crash, Writer.Write, Writer.isFlusher]

/-- What a request does to a field of the process state that is neither a
metric nor the clock index, by route. -/
theorem mux_field {α : Type} (f : Proc → α)
    (hf : ∀ (p : Proc) (c : String → String → Nat) (l : String → List Int) (t : Nat),
      f { p with reqTotal := c, reqLatency := l, tick := t } = f p)
    (fuel : Nat) (w : Writer) (c : Int) (r : Request) (s : Proc) :
    f (mux fuel (Writer.resp w c) r s).proc =
      if r.path = "/fail/ready" then f { s with ready := 0 }
      else if r.path = "/recover/ready" then f { s with ready := 1 }
      else if r.path = "/crash" then f { s with exited := some 1 }
      else f s := by
  have ht : ∀ (p : Proc) (t : Nat), f { p with tick := t } = f p := fun p t => hf p _ _ t
  have hin := fun w1 s1 => inner_frame f ht fuel w1 r s1
  have hi : ∀ (path : String) (h : HandlerFunc), (∀ w1 s1, f (h w1 r s1).proc = f s1) →
      f (instrument path h (Writer.resp w c) r s).proc = f s := by
    intro path h hh
    rw [instrument_field f path h _ r s hf, hh]
    exact ht s _
  rcases mux_cases fuel (Writer.resp w c) r s with ⟨hp, hm⟩ | ⟨hp, hm⟩ | ⟨hp, hm⟩ | ⟨hp, hm⟩ |
    ⟨hp, hm⟩ | ⟨hp, hm⟩ | ⟨hp, hm⟩ | ⟨hp, hm⟩ | ⟨hp, hm⟩ | ⟨hp, hm⟩ | ⟨hp, hm⟩
  · rw [hm]; simp [hp, healthz]
  · have hr : (readyz (Writer.resp w c) r s).proc = s := by
      unfold readyz; split_ifs <;> rfl
    rw [hm, hr]; simp [hp]
  · rw [hm]; simp [hp, failReady]
  · rw [hm]; simp [hp, recoverReady]
  · rw [hm, hi _ _ (fun w1 s1 => (hin w1 s1).1)]; simp [hp]
  · rw [hm, crash_resp]; simp [hp]
  · rw [hm, hi _ _ (fun w1 s1 => (hin w1 s1).2.1)]; simp [hp]
  · rw [hm, hi _ _ (fun w1 s1 => (hin w1 s1).2.2.1)]; simp [hp]
  · rw [hm, hi _ _ (fun w1 s1 => (hin w1 s1).2.2.2)]; simp [hp]
  · rw [hm]; simp [hp, metricsHandler]
  · rw [hm]
    simp only [List.mem_cons, List.mem_singleton, not_or, List.mem_nil_iff, or_false] at hp
    simp [hp, notFound]

/-- A process that has exited serves nothing. -/
theorem serve_dead (fuel : Nat) (r : Request) (s : Proc) (n : Nat) (hs : s.exited = some n) :
    serve fuel r s = ⟨Outcome.exited n, Writer.conn true [], s⟩ := by
  simp [serve, hs]

theorem serve_alive_field {α : Type} (f : Proc → α) (fuel : Nat) (r : Request) (s : Proc)
    (hs : s.exited = none)
    (hf : ∀ (p : Proc) (i : Int) (l : List LogLine) (t : Nat),
      f { p with inFlight := i, log := l, tick := t } = f p) :
    f (serve fuel r s).proc =
      f (mux fuel (Writer.resp (Writer.conn true []) 200) r (entered s)).proc := by
  rw [← logMiddleware_field f (mux fuel) (Writer.conn true []) r s hf]
  unfold serve
  simp only [hs]
  cases ho : (logMiddleware (mux fuel) (Writer.conn true []) r s).outcome <;> simp only []
  exact hf (logMiddleware (mux fuel) (Writer.conn true []) r s).proc _ _ _

theorem serve_ready (fuel : Nat) (r : Request) (s : Proc) (hs : s.exited = none) :
    (serve fuel r s).proc.ready =
      if r.path = "/fail/ready" then 0 else if r.path = "/recover/ready" then 1
      else s.ready := by
  rw [serve_alive_field Proc.ready fuel r s hs (fun _ _ _ _ => rfl),
    mux_field Proc.ready (fun _ _ _ _ => rfl)]
  split_ifs <;> rfl

theorem serve_exited (fuel : Nat) (r : Request) (s : Proc) (hs : s.exited = none) :
    (serve fuel r s).proc.exited = if r.path = "/crash" then some 1 else none := by
  rw [serve_alive_field Proc.exited fuel r s hs (fun _ _ _ _ => rfl),
    mux_field Proc.exited (fun _ _ _ _ => rfl)]
  have he : (entered s).exited = none := hs
  split_ifs <;> simp_all

/-! ## Readiness -/

theorem serveAll_append (fuel : Nat) (pre post : List Request) (s : Proc) :
    serveAll fuel (pre ++ post) s = serveAll fuel post (serveAll fuel pre s) := by
  induction pre generalizing s with
  | nil => rfl
  | cons r rest ih => simp [serveAll, ih]

theorem failedLast_nil : ¬ FailedLast [] := by
  rintro ⟨a, f, b, h, -⟩
  simp at h

theorem failedLast_concat (pre : List Request) (r : Request) :
    FailedLast (pre ++ [r]) ↔
      r.path = "/fail/ready" ∨ (r.path ≠ "/recover/ready" ∧ FailedLast pre) := by
  constructor
  · rintro ⟨a, f, b, h, hf, hb⟩
    rcases List.eq_nil_or_concat b with rfl | ⟨L, x, rfl⟩
    · have h2 : pre ++ [r] = a ++ [f] := by simpa using h
      have := List.append_inj_right' h2 rfl
      simp only [List.cons.injEq, and_true] at this
      left; rw [this]; exact hf
    · have h2 : pre ++ [r] = (a ++ f :: L) ++ [x] := by simpa using h
      have h3 := List.append_inj_right' h2 rfl
      have h4 := List.append_inj_left' h2 rfl
      simp only [List.cons.injEq, and_true] at h3
      subst h3
      right
      refine ⟨(hb r (by simp)).2, a, f, L, h4, hf, ?_⟩
      intro y hy
      exact hb y (by simp [hy])
  · rintro (hr | ⟨hr, a, f, b, h, hf, hb⟩)
    · exact ⟨pre, r, [], rfl, hr, by simp⟩
    · by_cases hfr : r.path = "/fail/ready"
      · exact ⟨pre, r, [], rfl, hfr, by simp⟩
      · refine ⟨a, f, b ++ [r], by simp [h], hf, ?_⟩
        intro y hy
        rcases List.mem_append.1 hy with hy | hy
        · exact hb y hy
        · simp only [List.mem_singleton] at hy
          subst hy
          exact ⟨hfr, hr⟩

/-- After a crash-free sequence of requests the process is alive and the flag
is 0 exactly when the last toggle was a failure injection. -/
theorem serveAll_flag (fuel : Nat) (clock : Nat → Int) (pre : List Request)
    (hcrash : ∀ x ∈ pre, x.path ≠ "/crash") :
    (serveAll fuel pre (Proc.init clock)).exited = none ∧
      (FailedLast pre → (serveAll fuel pre (Proc.init clock)).ready = 0) ∧
      (¬ FailedLast pre → (serveAll fuel pre (Proc.init clock)).ready = 1) := by
  induction pre using List.reverseRecOn with
  | nil => exact ⟨rfl, fun h => absurd h failedLast_nil, fun _ => rfl⟩
  | append_singleton init r ih =>
    have hc : ∀ x ∈ init, x.path ≠ "/crash" := fun x hx => hcrash x (by simp [hx])
    have hr : r.path ≠ "/crash" := hcrash r (by simp)
    obtain ⟨halive, h0, h1⟩ := ih hc
    rw [serveAll_append]
    simp only [serveAll]
    rw [serve_exited fuel r _ halive, serve_ready fuel r _ halive, failedLast_concat]
    refine ⟨by simp [hr], ?_, ?_⟩
    · rintro (hf | ⟨hnr, hp⟩)
      · simp [hf]
      · by_cases hf : r.path = "/fail/ready"
        · simp [hf]
        · simp [hf, hnr, h0 hp]
    · intro hn
      have hf : r.path ≠ "/fail/ready" := fun h => hn (Or.inl h)
      by_cases hrec : r.path = "/recover/ready"
      · simp [hrec]
      · have hnp : ¬ FailedLast init := fun h => hn (Or.inr ⟨hrec, h⟩)
        simp [hf, hrec, h1 hnp]

theorem serve_readyz (fuel : Nat) (r : Request) (s : Proc) (hp : r.path = "/readyz")
    (hs : s.exited = none) :
    (serve fuel r s).response =
      if s.ready = 1 then some ⟨200, [Payload.text "ready"]⟩
      else some ⟨503, [Payload.text "not-ready"]⟩ := by
  by_cases h : s.ready = 1 <;>
  simp [serve, hs, logMiddleware, mux, hp, readyz, h, Result.response, Writer.WriteHeader,
    Writer.Write, Writer.unwrap, Writer.calls, sentStatus, bodyOf, Proc.now, isInterim]

/-- C1. In a sequence of requests that contains no `/crash`, started from the
initial state, a `/readyz` request answers 503 "not-ready" exactly when an
earlier request was `/fail/ready` and no `/recover/ready` came after the last
such request; in every other case it answers 200 "ready". -/
theorem readyz_toggle (fuel : Nat) (clock : Nat → Int) (pre : List Request) (rq : Request)
    (hcrash : ∀ x ∈ pre, x.path ≠ "/crash") (hrq : rq.path = "/readyz") :
    ((serve fuel rq (serveAll fuel pre (Proc.init clock))).response =
        some ⟨503, [Payload.text "not-ready"]⟩ ↔
      ∃ a f b, pre = a ++ f :: b ∧ f.path = "/fail/ready" ∧
        ∀ x ∈ b, x.path ≠ "/fail/ready" ∧ x.path ≠ "/recover/ready") ∧
    ((serve fuel rq (serveAll fuel pre (Proc.init clock))).response =
        some ⟨200, [Payload.text "ready"]⟩ ↔
      ¬ ∃ a f b, pre = a ++ f :: b ∧ f.path = "/fail/ready" ∧
        ∀ x ∈ b, x.path ≠ "/fail/ready" ∧ x.path ≠ "/recover/ready") := by
  obtain ⟨halive, h0, h1⟩ := serveAll_flag fuel clock pre hcrash
  rw [serve_readyz fuel rq _ hrq halive]
  change (_ ↔ FailedLast pre) ∧ (_ ↔ ¬ FailedLast pre)
  by_cases hp : FailedLast pre
  · have := h0 hp
    simp [this, hp]
  · have := h1 hp
    simp [this, hp]

theorem readyz_toggle_witness :
    (serve 0 ⟨"/readyz", "GET"⟩ (serveAll 0
        [⟨"/fail/ready", "GET"⟩, ⟨"/healthz", "GET"⟩] (Proc.init fun n => n))).response =
      some ⟨503, [Payload.text "not-ready"]⟩ :=
  ((readyz_toggle 0 (fun n => n) [⟨"/fail/ready", "GET"⟩, ⟨"/healthz", "GET"⟩]
    ⟨"/readyz", "GET"⟩ (by decide) rfl).1).2
    ⟨[], ⟨"/fail/ready", "GET"⟩, [⟨"/healthz", "GET"⟩], rfl, rfl, by decide⟩

/-! ## Metrics -/

/-- The two metric vectors after `instrument`, when the wrapped handler does
not touch them: unchanged, or one increment and one observation under the
label `path`. -/
theorem instrument_metrics (path : String) (h : HandlerFunc) (w : Writer) (r : Request)
    (s : Proc)
    (hh : ∀ w1 s1, (h w1 r s1).proc.reqTotal = s1.reqTotal ∧
      (h w1 r s1).proc.reqLatency = s1.reqLatency) :
    ((instrument path h w r s).proc.reqTotal = s.reqTotal ∧
        (instrument path h w r s).proc.reqLatency = s.reqLatency) ∨
      ∃ (c : String) (d : Int),
        (instrument path h w r s).proc.reqTotal = incCounter s.reqTotal path c ∧
        (instrument path h w r s).proc.reqLatency = observe s.reqLatency path d := by
  by_cases hres : (h (Writer.resp w 200) r s.now.2).outcome = Outcome.returned
  · right
    rw [instrument_returned path h w r s hres]
    refine ⟨toString (h (Writer.resp w 200) r s.now.2).w.code,
      (h (Writer.resp w 200) r s.now.2).proc.now.1 - s.now.1, ?_, ?_⟩
    · show incCounter (h (Writer.resp w 200) r s.now.2).proc.reqTotal path _ = _
      rw [(hh _ _).1]; rfl
    · show observe (h (Writer.resp w 200) r s.now.2).proc.reqLatency path _ = _
      rw [(hh _ _).2]; rfl
  · left
    rw [instrument_other path h w r s hres]
    exact hh _ _

theorem mux_metrics (fuel : Nat) (w : Writer) (r : Request) (s : Proc) :
    ((mux fuel w r s).proc.reqTotal = s.reqTotal ∧
        (mux fuel w r s).proc.reqLatency = s.reqLatency) ∨
      (r.path ∈ ["/panic", "/work", "/work/cpu", "/work/latency"] ∧
        ∃ (c : String) (d : Int),
          (mux fuel w r s).proc.reqTotal = incCounter s.reqTotal r.path c ∧
          (mux fuel w r s).proc.reqLatency = observe s.reqLatency r.path d) := by
  have hin := fun w1 s1 =>
    And.intro (inner_frame Proc.reqTotal (fun _ _ => rfl) fuel w1 r s1)
      (inner_frame Proc.reqLatency (fun _ _ => rfl) fuel w1 r s1)
  have hr : (readyz w r s).proc = s := by
    unfold readyz; split_ifs <;> rfl
  have hc : (crash w r s).proc.reqTotal = s.reqTotal ∧
      (crash w r s).proc.reqLatency = s.reqLatency := by
    simp only [crash]
    split_ifs <;> exact ⟨rfl, rfl⟩
  rcases mux_cases fuel w r s with ⟨hp, hm⟩ | ⟨hp, hm⟩ | ⟨hp, hm⟩ | ⟨hp, hm⟩ |
    ⟨hp, hm⟩ | ⟨hp, hm⟩ | ⟨hp, hm⟩ | ⟨hp, hm⟩ | ⟨hp, hm⟩ | ⟨hp, hm⟩ | ⟨hp, hm⟩
  · left; rw [hm]; exact ⟨rfl, rfl⟩
  · left; rw [hm, hr]; exact ⟨rfl, rfl⟩
  · left; rw [hm]; exact ⟨rfl, rfl⟩
  · left; rw [hm]; exact ⟨rfl, rfl⟩
  · rw [hm, hp]
    rcases instrument_metrics "/panic" panicInner w r s
      (fun w1 s1 => ⟨(hin w1 s1).1.1, (hin w1 s1).2.1⟩) with h | h
    · exact Or.inl h
    · exact Or.inr ⟨by simp, h⟩
  · left; rw [hm]; exact hc
  · rw [hm, hp]
    rcases instrument_metrics "/work" workInner w r s
      (fun w1 s1 => ⟨(hin w1 s1).1.2.1, (hin w1 s1).2.2.1⟩) with h | h
    · exact Or.inl h
    · exact Or.inr ⟨by simp, h⟩
  · rw [hm, hp]
    rcases instrument_metrics "/work/cpu" (workCpuInner fuel) w r s
      (fun w1 s1 => ⟨(hin w1 s1).1.2.2.1, (hin w1 s1).2.2.2.1⟩) with h | h
    · exact Or.inl h
    · exact Or.inr ⟨by simp, h⟩
  · rw [hm, hp]
    rcases instrument_metrics "/work/latency" workLatencyInner w r s
      (fun w1 s1 => ⟨(hin w1 s1).1.2.2.2, (hin w1 s1).2.2.2.2⟩) with h | h
    · exact Or.inl h
    · exact Or.inr ⟨by simp, h⟩
  · left; rw [hm]; exact ⟨rfl, rfl⟩
  · left; rw [hm]; exact ⟨rfl, rfl⟩

theorem serve_metrics (fuel : Nat) (r : Request) (s : Proc) :
    ((serve fuel r s).proc.reqTotal = s.reqTotal ∧
        (serve fuel r s).proc.reqLatency = s.reqLatency) ∨
      (r.path ∈ ["/panic", "/work", "/work/cpu", "/work/latency"] ∧
        ∃ (c : String) (d : Int),
          (serve fuel r s).proc.reqTotal = incCounter s.reqTotal r.path c ∧
          (serve fuel r s).proc.reqLatency = observe s.reqLatency r.path d) := by
  cases hs : s.exited with
  | some n => left; rw [serve_dead fuel r s n hs]; exact ⟨rfl, rfl⟩
  | none =>
    rw [serve_alive_field Proc.reqTotal fuel r s hs (fun _ _ _ _ => rfl),
      serve_alive_field Proc.reqLatency fuel r s hs (fun _ _ _ _ => rfl)]
    exact mux_metrics fuel _ r (entered s)

/-- C10. A request to `/healthz`, `/readyz`, `/fail/ready`, `/recover/ready`
or `/crash` leaves every series of `http_requests_total` and of
`http_request_duration_seconds` as it was; a series of either metric changes
only on a request to `/panic`, `/work`, `/work/cpu` or `/work/latency`, and
then its `path` label is the path of that route. -/
theorem metrics_only_instrumented (fuel : Nat) (r : Request) (s : Proc) :
    (r.path ∈ ["/healthz", "/readyz", "/fail/ready", "/recover/ready", "/crash"] →
      (serve fuel r s).proc.reqTotal = s.reqTotal ∧
        (serve fuel r s).proc.reqLatency = s.reqLatency) ∧
    (∀ p c, (serve fuel r s).proc.reqTotal p c ≠ s.reqTotal p c →
      r.path ∈ ["/panic", "/work", "/work/cpu", "/work/latency"] ∧ p = r.path) ∧
    (∀ p, (serve fuel r s).proc.reqLatency p ≠ s.reqLatency p →
      r.path ∈ ["/panic", "/work", "/work/cpu", "/work/latency"] ∧ p = r.path) := by
  rcases serve_metrics fuel r s with ⟨ht, hl⟩ | ⟨hmem, c, d, ht, hl⟩
  · refine ⟨fun _ => ⟨ht, hl⟩, ?_, ?_⟩
    · intro p c hne; rw [ht] at hne; exact absurd rfl hne
    · intro p hne; rw [hl] at hne; exact absurd rfl hne
  · refine ⟨?_, ?_, ?_⟩
    · intro hmem2
      exfalso
      simp only [List.mem_cons, List.mem_singleton, List.mem_nil_iff, or_false] at hmem hmem2
      rcases hmem with h | h | h | h <;> rw [h] at hmem2 <;> simp at hmem2
    · intro p c2 hne
      refine ⟨hmem, ?_⟩
      rw [ht] at hne
      unfold incCounter at hne
      by_contra hp
      simp [hp] at hne
    · intro p hne
      refine ⟨hmem, ?_⟩
      rw [hl] at hne
      unfold observe at hne
      by_contra hp
      simp [hp] at hne

theorem metrics_only_instrumented_witness :
    ("/readyz" ∈ ["/healthz", "/readyz", "/fail/ready", "/recover/ready", "/crash"]) ∧
      (serve 0 ⟨"/readyz", "GET"⟩ (Proc.init fun n => n)).proc.reqTotal =
        (Proc.init fun n => n).reqTotal ∧
      (serve 0 ⟨"/readyz", "GET"⟩ (Proc.init fun n => n)).proc.reqLatency =
        (Proc.init fun n => n).reqLatency :=
  ⟨by decide,
    (metrics_only_instrumented 0 ⟨"/readyz", "GET"⟩ (Proc.init fun n => n)).1 (by decide)⟩

/-- What `/work` and `/panic` do to the request counter in a live process. -/
theorem serve_work_panic_total (fuel : Nat) (r : Request) (s : Proc) (hs : s.exited = none) :
    (r.path = "/work" → (serve fuel r s).proc.reqTotal = incCounter s.reqTotal "/work" "200") ∧
    (r.path = "/panic" →
      (serve fuel r s).proc.reqTotal = incCounter s.reqTotal "/panic" "500") := by
  constructor
  · intro hp
    simp [serve, hs, logMiddleware, mux, hp, instrument, workInner, Writer.Write,
      Writer.unwrap, Writer.SetHeader, Writer.code, Proc.now]
    rfl
  · intro hp
    simp [serve, hs, logMiddleware, mux, hp, instrument, panicInner, httpError,
      Writer.WriteHeader, Writer.Write, Writer.unwrap, Writer.SetHeader, Writer.code, Proc.now]
    rfl

/-- C3. In a live process a request to `/work` adds exactly 1 to the series
`http_requests_total{path="/work",code="200"}` and a request to `/panic` adds
exactly 1 to `http_requests_total{path="/panic",code="500"}`; every other
series of the counter keeps its value. -/
theorem request_counter_labels (fuel : Nat) (r : Request) (s : Proc) (hs : s.exited = none) :
    (r.path = "/work" →
      (serve fuel r s).proc.reqTotal "/work" "200" = s.reqTotal "/work" "200" + 1 ∧
      ∀ p c, ¬ (p = "/work" ∧ c = "200") → (serve fuel r s).proc.reqTotal p c = s.reqTotal p c) ∧
    (r.path = "/panic" →
      (serve fuel r s).proc.reqTotal "/panic" "500" = s.reqTotal "/panic" "500" + 1 ∧
      ∀ p c, ¬ (p = "/panic" ∧ c = "500") →
        (serve fuel r s).proc.reqTotal p c = s.reqTotal p c) := by
  obtain ⟨hw, hp⟩ := serve_work_panic_total fuel r s hs
  constructor
  · intro h
    rw [hw h]
    refine ⟨by simp [incCounter], ?_⟩
    intro p c hne
    simp [incCounter, hne]
  · intro h
    rw [hp h]
    refine ⟨by simp [incCounter], ?_⟩
    intro p c hne
    simp [incCounter, hne]

theorem request_counter_labels_witness :
    (Proc.init fun n => n).exited = none ∧
      (serve 0 ⟨"/panic", "GET"⟩ (Proc.init fun n => n)).proc.reqTotal "/panic" "500" =
        (Proc.init fun n => n).reqTotal "/panic" "500" + 1 ∧
      (serve 0 ⟨"/panic", "GET"⟩ (Proc.init fun n => n)).proc.reqTotal "/panic" "200" =
        (Proc.init fun n => n).reqTotal "/panic" "200" :=
  ⟨rfl,
    ((request_counter_labels 0 ⟨"/panic", "GET"⟩ (Proc.init fun n => n) rfl).2 rfl).1,
    ((request_counter_labels 0 ⟨"/panic", "GET"⟩ (Proc.init fun n => n) rfl).2 rfl).2
      "/panic" "200" (by decide)⟩

/-! ## Liveness probe -/

/-- C6. Whatever the value of the readiness flag, a request to `/healthz` in
a live process answers 200 with body "ok" and leaves the flag as it was. -/
theorem healthz_independent (fuel : Nat) (r : Request) (s : Proc)
    (hp : r.path = "/healthz") (hs : s.exited = none) :
    (serve fuel r s).response = some ⟨200, [Payload.text "ok"]⟩ ∧
      (serve fuel r s).proc.ready = s.ready := by
  simp [serve, hs, logMiddleware, mux, hp, healthz, Result.response, Writer.WriteHeader,
    Writer.Write, Writer.unwrap, Writer.calls, sentStatus, bodyOf, Proc.now]

theorem healthz_independent_witness :
    (serveAll 0 [⟨"/fail/ready", "GET"⟩] (Proc.init fun n => n)).exited = none ∧
      (serve 0 ⟨"/healthz", "GET"⟩
        (serveAll 0 [⟨"/fail/ready", "GET"⟩] (Proc.init fun n => n))).response =
          some ⟨200, [Payload.text "ok"]⟩ ∧
      (serve 0 ⟨"/healthz", "GET"⟩
        (serveAll 0 [⟨"/fail/ready", "GET"⟩] (Proc.init fun n => n))).proc.ready =
          (serveAll 0 [⟨"/fail/ready", "GET"⟩] (Proc.init fun n => n)).ready :=
  ⟨rfl, healthz_independent 0 ⟨"/healthz", "GET"⟩
    (serveAll 0 [⟨"/fail/ready", "GET"⟩] (Proc.init fun n => n)) rfl rfl⟩

/-! ## Crash -/

theorem Sys.step_dead (st : Sys) (ev : Event) (n : Nat) (h : st.proc.exited = some n) :
    st.step ev = st := by
  simp [Sys.step, h]

theorem Sys.run_dead (st : Sys) (evs : List Event) (n : Nat) (h : st.proc.exited = some n) :
    st.run evs = st := by
  induction evs with
  | nil => rfl
  | cons ev rest ih =>
    show (st.step ev).run rest = st
    rw [Sys.step_dead st ev n h, ih]

/-- C8. A request to `/crash` in a live process sends the body
"crashing process\n" and a flush to the connection, then the process exits
with status 1. The request adds no line to the log, in particular not the
request record of `logMiddleware`, and nothing that happens afterwards adds
one. -/
theorem crash_silent_exit (fuel : Nat) (r : Request) (s : Proc)
    (hp : r.path = "/crash") (hs : s.exited = none) :
    (serve fuel r s).w.calls = [Call.write (Payload.text "crashing process\n"), Call.flush] ∧
      (serve fuel r s).outcome = Outcome.exited 1 ∧
      (serve fuel r s).proc.exited = some 1 ∧
      (serve fuel r s).proc.log = s.log ∧
      ∀ (pc : MainPc) (b : Bool) (evs : List Event),
        (Sys.run ⟨pc, (serve fuel r s).proc, b⟩ evs).proc.log = s.log := by
  have h1 : (serve fuel r s).proc.exited = some 1 := by
    rw [serve_exited fuel r s hs]; simp [hp]
  have h2 : (serve fuel r s).proc.log = s.log := by
    simp [serve, hs, logMiddleware, mux, hp, crash, Writer.Write, Writer.isFlusher,
      Writer.Flush, Writer.unwrap, Proc.now]
  refine ⟨?_, ?_, h1, h2, ?_⟩
  · simp [serve, hs, logMiddleware, mux, hp, crash, Writer.Write, Writer.isFlusher,
      Writer.Flush, Writer.unwrap, Writer.calls, Proc.now]
  · simp [serve, hs, logMiddleware, mux, hp, crash, Writer.Write, Writer.isFlusher,
      Writer.Flush, Writer.unwrap, Proc.now]
  · intro pc b evs
    rw [Sys.run_dead _ evs 1 h1]
    exact h2

theorem crash_silent_exit_witness :
    (Proc.init fun n => n).exited = none ∧
      (serve 0 ⟨"/crash", "GET"⟩ (Proc.init fun n => n)).outcome = Outcome.exited 1 ∧
      (Sys.run ⟨MainPc.waiting, (serve 0 ⟨"/crash", "GET"⟩ (Proc.init fun n => n)).proc, false⟩
        [Event.request 0 ⟨"/healthz", "GET"⟩, Event.signal, Event.main false]).proc.log = [] :=
  ⟨rfl, (crash_silent_exit 0 ⟨"/crash", "GET"⟩ (Proc.init fun n => n) rfl rfl).2.1,
    (crash_silent_exit 0 ⟨"/crash", "GET"⟩ (Proc.init fun n => n) rfl rfl).2.2.2.2
      MainPc.waiting false _⟩

/-! ## In-flight gauge -/

/-- The route table never writes the gauge. -/
theorem mux_inFlight (fuel : Nat) (w : Writer) (r : Request) (s : Proc) :
    (mux fuel w r s).proc.inFlight = s.inFlight := by
  have hin := fun w1 s1 => inner_frame Proc.inFlight (fun _ _ => rfl) fuel w1 r s1
  have hi : ∀ (path : String) (h : HandlerFunc),
      (∀ w1 s1, (h w1 r s1).proc.inFlight = s1.inFlight) →
      (instrument path h w r s).proc.inFlight = s.inFlight := by
    intro path h hh
    rw [instrument_field Proc.inFlight path h w r s (fun _ _ _ _ => rfl), hh]
    rfl
  rcases mux_cases fuel w r s with ⟨_, hm⟩ | ⟨_, hm⟩ | ⟨_, hm⟩ | ⟨_, hm⟩ |
    ⟨_, hm⟩ | ⟨_, hm⟩ | ⟨_, hm⟩ | ⟨_, hm⟩ | ⟨_, hm⟩ | ⟨_, hm⟩ | ⟨_, hm⟩
  · rw [hm]; rfl
  · rw [hm]; simp only [readyz]; split_ifs <;> rfl
  · rw [hm]; rfl
  · rw [hm]; rfl
  · rw [hm]; exact hi _ _ (fun w1 s1 => (hin w1 s1).1)
  · rw [hm]; simp only [crash]; split_ifs <;> rfl
  · rw [hm]; exact hi _ _ (fun w1 s1 => (hin w1 s1).2.1)
  · rw [hm]; exact hi _ _ (fun w1 s1 => (hin w1 s1).2.2.1)
  · rw [hm]; exact hi _ _ (fun w1 s1 => (hin w1 s1).2.2.2)
  · rw [hm]; rfl
  · rw [hm]; rfl

/-- C2. For every inner handler that does not itself write the gauge, and
every request on which it returns or panics, `http_in_flight_requests` has
after `logMiddleware` the value it had before: the inner handler is started
in a state where the gauge is one higher, and one is subtracted from what it
leaves. -/
theorem inFlight_round_trip (next : HandlerFunc) (w : Writer) (r : Request) (s : Proc)
    (hnext : ∀ w1 r1 s1, (next w1 r1 s1).proc.inFlight = s1.inFlight)
    (hout : (logMiddleware next w r s).outcome = Outcome.returned ∨
      (logMiddleware next w r s).outcome = Outcome.panicked) :
    (logMiddleware next w r s).proc.inFlight = s.inFlight ∧
      ∃ s1 : Proc, s1.inFlight = s.inFlight + 1 ∧
        (logMiddleware next w r s).outcome = (next (Writer.resp w 200) r s1).outcome ∧
        (logMiddleware next w r s).proc.inFlight =
          (next (Writer.resp w 200) r s1).proc.inFlight - 1 := by
  have he : (entered s).inFlight = s.inFlight + 1 := rfl
  have hkey : (logMiddleware next w r s).proc.inFlight =
      (next (Writer.resp w 200) r (entered s)).proc.inFlight - 1 := by
    rw [logMiddleware_outcome] at hout
    rcases hout with h | h
    · rw [logMiddleware_returned next w r s h]
    · rw [logMiddleware_panicked next w r s h]
  refine ⟨?_, entered s, he, logMiddleware_outcome next w r s, hkey⟩
  rw [hkey, hnext, he]
  ring

theorem inFlight_round_trip_witness :
    (∀ w1 r1 s1, (mux 0 w1 r1 s1).proc.inFlight = s1.inFlight) ∧
      (logMiddleware (mux 0) (Writer.conn true []) ⟨"/panic", "GET"⟩
        (Proc.init fun n => n)).outcome = Outcome.returned ∧
      (logMiddleware (mux 0) (Writer.conn true []) ⟨"/panic", "GET"⟩
        (Proc.init fun n => n)).proc.inFlight = (Proc.init fun n => n).inFlight :=
  ⟨mux_inFlight 0, rfl,
    (inFlight_round_trip (mux 0) (Writer.conn true []) ⟨"/panic", "GET"⟩
      (Proc.init fun n => n) (mux_inFlight 0) (Or.inl rfl)).1⟩

/-- When the inner handler ends the process, the deferred decrement never
runs: the gauge keeps the value it had inside the request. -/
theorem inFlight_after_exit (next : HandlerFunc) (w : Writer) (r : Request) (s : Proc)
    (n : Nat) (hout : (next (Writer.resp w 200) r (entered s)).outcome = Outcome.exited n) :
    (logMiddleware next w r s).proc.inFlight =
      (next (Writer.resp w 200) r (entered s)).proc.inFlight := by
  rw [logMiddleware_other next w r s (by simp [hout]) (by simp [hout])]

/-! ## `respWriter` under an arbitrary handler -/

namespace Writer

theorem isFlusher_SetHeader (w : Writer) (k v : String) :
    (w.SetHeader k v).isFlusher = w.isFlusher := by
  cases w <;> rfl

theorem isFlusher_Write (w : Writer) (p : Payload) : (w.Write p).isFlusher = w.isFlusher := by
  cases w <;> rfl

theorem isFlusher_WriteHeader (w : Writer) (c : Int) :
    (w.WriteHeader c).isFlusher = w.isFlusher := by
  cases w with
  | conn f cs => simp only [WriteHeader]; split_ifs <;> rfl
  | resp inner code => rfl

theorem isFlusher_Flush (w : Writer) : w.Flush.isFlusher = w.isFlusher := by
  cases w with
  | conn f cs => cases f <;> rfl
  | resp inner c => simp only [Flush]; split_ifs <;> rfl

/-- A valid status code is never refused. -/
theorem rejects_valid (w : Writer) (c : Int) (h : isValid c = true) : w.rejects c = false := by
  induction w with
  | conn f cs => simp [rejects, h]
  | resp inner code ih => exact ih

theorem calls_unwrap (w : Writer) : w.unwrap.calls = w.calls := by
  cases w <;> rfl

end Writer

/-- Run on a `respWriter` around a writer that has `Flush`, a handler body
ends the same way, leaves the embedded writer as if it had been run on it
directly, and leaves the same process state. -/
theorem Prog.run_resp (p : Prog) (w : Writer) (c : Int) (s : Proc) (hw : w.isFlusher = true) :
    (p.run (Writer.resp w c) s).outcome = (p.run w s).outcome ∧
      (p.run (Writer.resp w c) s).w.unwrap = (p.run w s).w ∧
      (p.run (Writer.resp w c) s).proc = (p.run w s).proc := by
  induction p generalizing w c s with
  | ret => exact ⟨rfl, rfl, rfl⟩
  | panics => exact ⟨rfl, rfl, rfl⟩
  | osExit n => exact ⟨rfl, rfl, rfl⟩
  | spin => exact ⟨rfl, rfl, rfl⟩
  | setHeader k v next ih =>
    simp only [Prog.run, Writer.SetHeader]
    exact ih _ _ _ (by rw [Writer.isFlusher_SetHeader]; exact hw)
  | writeHeader code next ih =>
    have e0 : (Writer.resp w c).rejects code = w.rejects code := rfl
    have e1 : (Writer.resp w c).WriteHeader code = Writer.resp (w.WriteHeader code) code := rfl
    simp only [Prog.run, e0, e1]
    by_cases hr : w.rejects code = true
    · rw [if_pos hr, if_pos hr]
      exact ⟨rfl, rfl, rfl⟩
    · rw [if_neg hr, if_neg hr]
      exact ih _ _ _ (by rw [Writer.isFlusher_WriteHeader]; exact hw)
  | write pl next ih =>
    simp only [Prog.run, Writer.Write]
    exact ih _ _ _ (by rw [Writer.isFlusher_Write]; exact hw)
  | ifFlusher yes no ihy ihn =>
    have e1 : (Prog.ifFlusher yes no).run (Writer.resp w c) s = yes.run (Writer.resp w c) s :=
      rfl
    have e2 : (Prog.ifFlusher yes no).run w s = yes.run w s := by
      simp only [Prog.run, hw, if_true]
    rw [e1, e2]
    exact ihy _ _ _ hw
  | flush next ih =>
    have e1 : (Prog.flush next).run (Writer.resp w c) s =
        next.run (Writer.resp w.Flush c) s := by
      simp only [Prog.run, Writer.Flush, hw, if_true]
      rfl
    have e2 : (Prog.flush next).run w s = next.run w.Flush s := by
      simp only [Prog.run, hw, if_true]
    rw [e1, e2]
    exact ih _ _ _ (by rw [Writer.isFlusher_Flush]; exact hw)
  | withProc k ih =>
    simp only [Prog.run]
    exact ih s _ _ _ hw
  | modify f next ih =>
    simp only [Prog.run]
    exact ih _ _ _ hw

theorem panicInner_prog : panicInner = Prog.handler fun _ => panicProg := by
  funext w r s
  have h500 : ∀ w1 : Writer, w1.rejects 500 = false := fun w1 =>
    Writer.rejects_valid w1 500 (by decide)
  simp [panicInner, Prog.handler, panicProg, Prog.run, httpError, h500]

theorem workInner_prog : workInner = Prog.handler fun _ => workProg := by
  funext w r s
  rfl

theorem workCpuInner_prog (fuel : Nat) :
    workCpuInner fuel = Prog.handler fun _ => workCpuProg fuel := by
  funext w r s
  simp only [workCpuInner, Prog.handler, workCpuProg, Prog.run]
  cases burnCPU 1200000000 fuel s <;> rfl

theorem workLatencyInner_prog : workLatencyInner = Prog.handler fun _ => workLatencyProg := by
  funext w r s
  rfl

/-- C5. For every path label, every inner handler (any body of writer calls,
reads and updates of the process state, ending by return, panic, `os.Exit` or
not at all) and every request, on every writer that has `Flush`:
`instrument(path, h)` leaves the writer exactly as `h` leaves it when run
directly on that writer in the state in which `instrument` starts it, after
the wrapper has read the clock; so the same header mutations, `WriteHeader`
codes, `Write` payloads and `Flush` calls reach the connection in the same
order, and the wrapper ends the way `h` ends, adding no panic of its own.
The four functions `main` wraps are handlers of this kind. -/
theorem instrument_transparent (path : String) (h : Request → Prog) (w : Writer)
    (r : Request) (s : Proc) (hw : w.isFlusher = true) :
    ((instrument path (Prog.handler h) w r s).w = (Prog.handler h w r s.now.2).w ∧
      (instrument path (Prog.handler h) w r s).w.calls =
        (Prog.handler h w r s.now.2).w.calls ∧
      (instrument path (Prog.handler h) w r s).outcome =
        (Prog.handler h w r s.now.2).outcome) ∧
    (panicInner = Prog.handler (fun _ => panicProg) ∧
      workInner = Prog.handler (fun _ => workProg) ∧
      (∀ fuel, workCpuInner fuel = Prog.handler (fun _ => workCpuProg fuel)) ∧
      workLatencyInner = Prog.handler (fun _ => workLatencyProg)) := by
  have hrun := Prog.run_resp (h r) w 200 s.now.2 hw
  have hweq : (instrument path (Prog.handler h) w r s).w = (Prog.handler h w r s.now.2).w := by
    rw [instrument_w]
    exact hrun.2.1
  refine ⟨⟨hweq, by rw [hweq], ?_⟩, panicInner_prog, workInner_prog, workCpuInner_prog,
    workLatencyInner_prog⟩
  rw [instrument_outcome]
  exact hrun.1

theorem instrument_transparent_witness :
    (Writer.conn true []).isFlusher = true ∧
      (instrument "/work" workInner (Writer.conn true []) ⟨"/work", "GET"⟩
          (Proc.init fun n => n)).w.calls =
        (workInner (Writer.conn true []) ⟨"/work", "GET"⟩ (Proc.init fun n => n).now.2).w.calls :=
  ⟨rfl, (instrument_transparent "/work" (fun _ => workProg) (Writer.conn true [])
    ⟨"/work", "GET"⟩ (Proc.init fun n => n) rfl).1.2.1⟩

/-- On a bare connection writer without `Flush` the wrapper is visible: the
unchecked assertion of a handler panics when run directly and succeeds on the
`respWriter`, so later writes reach the connection only under `instrument`.
No writer of this kind reaches `instrument` in `main`. -/
theorem instrument_on_plain_writer :
    (instrument "/x" (Prog.handler fun _ => Prog.flush (Prog.write (Payload.text "x") Prog.ret))
        (Writer.conn false []) ⟨"/x", "GET"⟩ (Proc.init fun n => n)).w.calls =
        [Call.write (Payload.text "x")] ∧
      (Prog.handler (fun _ => Prog.flush (Prog.write (Payload.text "x") Prog.ret))
        (Writer.conn false []) ⟨"/x", "GET"⟩ (Proc.init fun n => n).now.2).w.calls = [] := by
  decide

/-! ## The captured status -/

theorem lastHeader_noHeader (cs : List Call) (c : Int) (h : noHeader cs = true) :
    lastHeader cs c = c := by
  induction cs with
  | nil => rfl
  | cons x rest ih => cases x <;> simp_all [noHeader, lastHeader]

theorem finalCodes_noHeader (cs : List Call) (h : noHeader cs = true) :
    finalCodes cs = true := by
  induction cs with
  | nil => rfl
  | cons x rest ih => cases x <;> simp_all [noHeader, finalCodes]

theorem headerOnce_noHeader (cs : List Call) (h : noHeader cs = true) :
    headerOnce cs = true := by
  induction cs with
  | nil => rfl
  | cons x rest ih => cases x <;> simp_all [noHeader, headerOnce]

theorem sentStatus_noHeader (fl : Bool) (cs : List Call) (h : noHeader cs = true) :
    sentStatus (reach fl cs) = 200 := by
  induction cs with
  | nil => rfl
  | cons x rest ih =>
    cases x with
    | setHeader k v => simpa [reach, sentStatus] using ih h
    | writeHeader k => simp [noHeader] at h
    | write p => rfl
    | flush =>
      cases fl
      · simpa [reach] using ih h
      · rfl

theorem isFinal_parts (c : Int) (h : isFinal c = true) :
    isValid c = true ∧ isInterim c = false := by
  simpa [isFinal] using h

theorem lastHeader_headerOnce (fl : Bool) (cs : List Call) (h : headerOnce cs = true)
    (hf : finalCodes cs = true) : lastHeader cs 200 = sentStatus (reach fl cs) := by
  induction cs with
  | nil => rfl
  | cons x rest ih =>
    cases x with
    | setHeader k v => simpa [reach, sentStatus, lastHeader] using ih h hf
    | writeHeader k =>
      have hk : isFinal k = true := by
        simp only [finalCodes, Bool.and_eq_true] at hf
        exact hf.1
      simp only [lastHeader, reach, sentStatus, (isFinal_parts k hk).2]
      exact lastHeader_noHeader rest k h
    | write p =>
      simp only [lastHeader, reach, sentStatus]
      exact lastHeader_noHeader rest 200 h
    | flush =>
      have h1 : lastHeader (Call.flush :: rest) 200 = 200 := lastHeader_noHeader rest 200 h
      have h2 : noHeader (Call.flush :: rest) = true := h
      rw [h1, sentStatus_noHeader fl _ h2]

/-- A handler made of calls leaves the process state alone, however it ends. -/
theorem Prog.run_ofCalls_proc (cs : List Call) (w : Writer) (s : Proc) :
    ((Prog.ofCalls cs).run w s).proc = s := by
  induction cs generalizing w with
  | nil => rfl
  | cons x rest ih =>
    cases x with
    | setHeader k v => exact ih _
    | writeHeader k =>
      simp only [Prog.ofCalls, Prog.run]
      split_ifs
      · rfl
      · exact ih _
    | write p => exact ih _
    | flush =>
      simp only [Prog.ofCalls, Prog.run]
      split_ifs
      · exact ih _
      · exact ih _

/-- When a handler made of calls returns, `rw.code` holds the argument of its
last `WriteHeader`. -/
theorem Prog.run_ofCalls_code (cs : List Call) (w : Writer) (c : Int) (s : Proc)
    (h : ((Prog.ofCalls cs).run (Writer.resp w c) s).outcome = Outcome.returned) :
    ((Prog.ofCalls cs).run (Writer.resp w c) s).w.code = lastHeader cs c := by
  induction cs generalizing w c with
  | nil => rfl
  | cons x rest ih =>
    cases x with
    | setHeader k v => exact ih _ _ h
    | writeHeader k =>
      have e1 : (Writer.resp w c).WriteHeader k = Writer.resp (w.WriteHeader k) k := rfl
      simp only [Prog.ofCalls, Prog.run, e1] at h ⊢
      by_cases hr : (Writer.resp w c).rejects k = true
      · rw [if_pos hr] at h
        exact absurd h (by simp)
      · rw [if_neg hr] at h ⊢
        exact ih _ _ h
    | write p => exact ih _ _ h
    | flush =>
      have e0 : (Writer.resp w c).isFlusher = true := rfl
      simp only [Prog.ofCalls, Prog.run, e0, if_true, Writer.Flush] at h ⊢
      by_cases hw : w.isFlusher = true
      · rw [if_pos hw] at h ⊢
        exact ih _ _ h
      · rw [if_neg hw] at h ⊢
        exact ih _ _ h

/-- The two `respWriter`s of `logMiddleware` and `instrument` after the calls
of a handler whose status codes are final. -/
theorem Prog.run_ofCalls (cs : List Call) (fl : Bool) (pre : List Call) (c1 c2 : Int)
    (s : Proc) (hf : finalCodes cs = true) :
    (Prog.ofCalls cs).run (Writer.resp (Writer.resp (Writer.conn fl pre) c1) c2) s =
      ⟨Outcome.returned,
        Writer.resp (Writer.resp (Writer.conn fl (pre ++ reach fl cs)) (lastHeader cs c1))
          (lastHeader cs c2), s⟩ := by
  induction cs generalizing pre c1 c2 with
  | nil => simp [Prog.ofCalls, Prog.run, reach, lastHeader]
  | cons x rest ih =>
    cases x with
    | setHeader k v =>
      simp only [Prog.ofCalls, Prog.run, Writer.SetHeader, ih _ _ _ hf, reach, lastHeader]
      simp
    | writeHeader k =>
      simp only [finalCodes, Bool.and_eq_true] at hf
      have hv := (isFinal_parts k hf.1).1
      have hr := Writer.rejects_valid (Writer.resp (Writer.resp (Writer.conn fl pre) c1) c2) k hv
      simp only [Prog.ofCalls, Prog.run, hr, Writer.WriteHeader, hv, reach, lastHeader]
      simp only [Bool.not_true, Bool.and_false, Bool.false_eq_true, if_false]
      rw [ih _ _ _ hf.2]
      simp
    | write p =>
      simp only [Prog.ofCalls, Prog.run, Writer.Write, ih _ _ _ hf, reach, lastHeader]
      simp
    | flush =>
      have hf2 : finalCodes rest = true := hf
      cases fl <;>
        simp [Prog.ofCalls, Prog.run, Writer.Flush, Writer.isFlusher, ih _ _ _ hf2, reach,
          lastHeader]

theorem serve_alive_eq (fuel : Nat) (r : Request) (s : Proc) (hs : s.exited = none) :
    (serve fuel r s).outcome = (logMiddleware (mux fuel) (Writer.conn true []) r s).outcome ∧
      (serve fuel r s).w = (logMiddleware (mux fuel) (Writer.conn true []) r s).w := by
  unfold serve
  simp only [hs]
  cases ho : (logMiddleware (mux fuel) (Writer.conn true []) r s).outcome <;> simp [ho]

/-- The four wrapped functions of `main`, behind `logMiddleware` on a fresh
connection: when they return, the code recorded is the status sent. -/
theorem instrument_main_status (fuel : Nat) (r : Request) (s : Proc) (path : String)
    (h : HandlerFunc)
    (hh : (path = "/panic" ∧ h = panicInner) ∨ (path = "/work" ∧ h = workInner) ∨
      (path = "/work/cpu" ∧ h = workCpuInner fuel) ∨
      (path = "/work/latency" ∧ h = workLatencyInner))
    (hret : (instrument path h (Writer.resp (Writer.conn true []) 200) r s).outcome =
      Outcome.returned) :
    (instrument path h (Writer.resp (Writer.conn true []) 200) r s).proc.reqTotal =
      incCounter s.reqTotal path (toString (sentStatus
        (instrument path h (Writer.resp (Writer.conn true []) 200) r s).w.calls)) := by
  rw [instrument_outcome] at hret
  have e1 : (instrument path h (Writer.resp (Writer.conn true []) 200) r s).proc.reqTotal =
      incCounter (h (Writer.resp (Writer.resp (Writer.conn true []) 200) 200) r s.now.2).proc.reqTotal
        path (toString (h (Writer.resp (Writer.resp (Writer.conn true []) 200) 200) r
          s.now.2).w.code) := by
    rw [instrument_returned _ _ _ _ _ hret]
  rw [e1, instrument_w]
  rcases hh with ⟨rfl, rfl⟩ | ⟨rfl, rfl⟩ | ⟨rfl, rfl⟩ | ⟨rfl, rfl⟩
  · simp [panicInner, httpError, Writer.SetHeader, Writer.WriteHeader, Writer.Write,
      Writer.code, Writer.unwrap, Writer.calls, sentStatus, headerSent, isValid, isInterim,
      Proc.now]
  · simp [workInner, Writer.SetHeader, Writer.Write, Writer.code, Writer.unwrap,
      Writer.calls, sentStatus, Proc.now]
  · rcases workCpuInner_cases fuel (Writer.resp (Writer.resp (Writer.conn true []) 200) 200)
      r s.now.2 with hc | ⟨t, hc⟩
    · rw [hc] at hret
      exact absurd hret (by simp)
    · rw [hc]
      simp [Writer.SetHeader, Writer.Write, Writer.code, Writer.unwrap, Writer.calls,
        sentStatus, Proc.now]
  · simp [workLatencyInner, Writer.SetHeader, Writer.Write, Writer.code, Writer.unwrap,
      Writer.calls, sentStatus, Proc.now]

theorem serve_main_status (fuel : Nat) (r : Request) (s : Proc) (hs : s.exited = none)
    (hp : r.path ∈ ["/panic", "/work", "/work/cpu", "/work/latency"])
    (hret : (serve fuel r s).outcome = Outcome.returned) :
    (serve fuel r s).proc.reqTotal =
      incCounter s.reqTotal r.path (toString (sentStatus (serve fuel r s).w.calls)) := by
  have hmux : ∃ h : HandlerFunc,
      ((r.path = "/panic" ∧ h = panicInner) ∨ (r.path = "/work" ∧ h = workInner) ∨
        (r.path = "/work/cpu" ∧ h = workCpuInner fuel) ∨
        (r.path = "/work/latency" ∧ h = workLatencyInner)) ∧
      ∀ w p, mux fuel w r p = instrument r.path h w r p := by
    simp only [List.mem_cons, List.mem_singleton, List.mem_nil_iff, or_false] at hp
    rcases hp with h | h | h | h
    · exact ⟨panicInner, Or.inl ⟨h, rfl⟩, fun w p => by simp [mux, h]⟩
    · exact ⟨workInner, Or.inr (Or.inl ⟨h, rfl⟩), fun w p => by simp [mux, h]⟩
    · exact ⟨workCpuInner fuel, Or.inr (Or.inr (Or.inl ⟨h, rfl⟩)), fun w p => by simp [mux, h]⟩
    · exact ⟨workLatencyInner, Or.inr (Or.inr (Or.inr ⟨h, rfl⟩)),
        fun w p => by simp [mux, h]⟩
  obtain ⟨h, hh, hm⟩ := hmux
  obtain ⟨ho, hw⟩ := serve_alive_eq fuel r s hs
  rw [ho, logMiddleware_outcome, hm] at hret
  rw [serve_alive_field Proc.reqTotal fuel r s hs (fun _ _ _ _ => rfl), hw, logMiddleware_w,
    Writer.calls_unwrap, hm]
  exact instrument_main_status fuel r (entered s) r.path h hh hret

/-- C4. For every handler, given as the sequence of calls it makes, on a
fresh connection behind `logMiddleware`: when it returns, the code
`instrument` puts in the counter label is the argument of its last
`WriteHeader` (200 without one), and when `WriteHeader` panics on the code
nothing is counted. The code counted is the status the connection sent
whenever the handler calls `WriteHeader` at most once, with a final status
code (101 or 200..999), and not after a `Write` or a `Flush`; a handler that
never calls `WriteHeader` is counted under `code="200"`. For the four
functions `main` wraps, served by the server, the code counted is the status
sent. -/
theorem recorded_status (path : String) (cs : List Call) (fl : Bool) (r : Request) (s : Proc) :
    ((instrument path (Prog.handler fun _ => Prog.ofCalls cs)
        (Writer.resp (Writer.conn fl []) 200) r s).outcome = Outcome.returned →
      (instrument path (Prog.handler fun _ => Prog.ofCalls cs)
        (Writer.resp (Writer.conn fl []) 200) r s).proc.reqTotal =
          incCounter s.reqTotal path (toString (lastHeader cs 200))) ∧
    ((instrument path (Prog.handler fun _ => Prog.ofCalls cs)
        (Writer.resp (Writer.conn fl []) 200) r s).outcome ≠ Outcome.returned →
      (instrument path (Prog.handler fun _ => Prog.ofCalls cs)
        (Writer.resp (Writer.conn fl []) 200) r s).proc.reqTotal = s.reqTotal) ∧
    (headerOnce cs = true → finalCodes cs = true →
      (instrument path (Prog.handler fun _ => Prog.ofCalls cs)
        (Writer.resp (Writer.conn fl []) 200) r s).outcome = Outcome.returned ∧
      lastHeader cs 200 =
        sentStatus (instrument path (Prog.handler fun _ => Prog.ofCalls cs)
          (Writer.resp (Writer.conn fl []) 200) r s).w.calls) ∧
    (noHeader cs = true →
      (instrument path (Prog.handler fun _ => Prog.ofCalls cs)
        (Writer.resp (Writer.conn fl []) 200) r s).outcome = Outcome.returned ∧
      (instrument path (Prog.handler fun _ => Prog.ofCalls cs)
        (Writer.resp (Writer.conn fl []) 200) r s).proc.reqTotal =
          incCounter s.reqTotal path "200") ∧
    (∀ (fuel : Nat) (rq : Request) (p : Proc), p.exited = none →
      rq.path ∈ ["/panic", "/work", "/work/cpu", "/work/latency"] →
      (serve fuel rq p).outcome = Outcome.returned →
      (serve fuel rq p).proc.reqTotal =
        incCounter p.reqTotal rq.path (toString (sentStatus (serve fuel rq p).w.calls))) := by
  have hproc : (Prog.handler (fun _ => Prog.ofCalls cs)
      (Writer.resp (Writer.resp (Writer.conn fl []) 200) 200) r s.now.2).proc = s.now.2 :=
    Prog.run_ofCalls_proc cs _ _
  have hret : (instrument path (Prog.handler fun _ => Prog.ofCalls cs)
      (Writer.resp (Writer.conn fl []) 200) r s).outcome = Outcome.returned →
      (instrument path (Prog.handler fun _ => Prog.ofCalls cs)
        (Writer.resp (Writer.conn fl []) 200) r s).proc.reqTotal =
          incCounter s.reqTotal path (toString (lastHeader cs 200)) := by
    intro ho
    rw [instrument_outcome] at ho
    rw [instrument_returned _ _ _ _ _ ho]
    show incCounter _ path _ = _
    rw [hproc]
    have hc := Prog.run_ofCalls_code cs (Writer.resp (Writer.conn fl []) 200) 200 s.now.2 ho
    simp only [Prog.handler]
    rw [hc]
    rfl
  have hfinal : finalCodes cs = true →
      (instrument path (Prog.handler fun _ => Prog.ofCalls cs)
        (Writer.resp (Writer.conn fl []) 200) r s).outcome = Outcome.returned ∧
      (instrument path (Prog.handler fun _ => Prog.ofCalls cs)
        (Writer.resp (Writer.conn fl []) 200) r s).w.calls = reach fl cs := by
    intro hf
    have hrun := Prog.run_ofCalls cs fl [] 200 200 s.now.2 hf
    refine ⟨?_, ?_⟩
    · rw [instrument_outcome]
      simp only [Prog.handler, hrun]
    · rw [instrument_w]
      simp only [Prog.handler, hrun]
      simp [Writer.unwrap, Writer.calls]
  refine ⟨hret, ?_, ?_, ?_, fun fuel rq p hp hm ho => serve_main_status fuel rq p hp hm ho⟩
  · intro ho
    rw [instrument_outcome] at ho
    rw [instrument_other _ _ _ _ _ ho]
    show (Prog.handler (fun _ => Prog.ofCalls cs) _ r s.now.2).proc.reqTotal = _
    rw [hproc]
    rfl
  · intro h1 hf
    obtain ⟨ho, hcalls⟩ := hfinal hf
    exact ⟨ho, by rw [hcalls]; exact lastHeader_headerOnce fl cs h1 hf⟩
  · intro h1
    obtain ⟨ho, -⟩ := hfinal (finalCodes_noHeader cs h1)
    refine ⟨ho, ?_⟩
    rw [hret ho, lastHeader_noHeader cs 200 h1]
    rfl

theorem recorded_status_witness :
    (headerOnce [Call.setHeader "A" "b", Call.writeHeader 404, Call.write (Payload.text "no")] =
        true ∧
      finalCodes [Call.setHeader "A" "b", Call.writeHeader 404, Call.write (Payload.text "no")] =
        true) ∧
      (instrument "/x" (Prog.handler fun _ => Prog.ofCalls
          [Call.setHeader "A" "b", Call.writeHeader 404, Call.write (Payload.text "no")])
          (Writer.resp (Writer.conn true []) 200) ⟨"/x", "GET"⟩
          (Proc.init fun n => n)).outcome = Outcome.returned ∧
      lastHeader [Call.setHeader "A" "b", Call.writeHeader 404, Call.write (Payload.text "no")]
          200 =
        sentStatus (instrument "/x" (Prog.handler fun _ => Prog.ofCalls
          [Call.setHeader "A" "b", Call.writeHeader 404, Call.write (Payload.text "no")])
          (Writer.resp (Writer.conn true []) 200) ⟨"/x", "GET"⟩
          (Proc.init fun n => n)).w.calls :=
  ⟨⟨rfl, rfl⟩, (recorded_status "/x"
    [Call.setHeader "A" "b", Call.writeHeader 404, Call.write (Payload.text "no")] true
    ⟨"/x", "GET"⟩ (Proc.init fun n => n)).2.2.1 rfl rfl⟩

/-- A handler that writes part of the body and then calls `WriteHeader(500)`:
the connection has sent 200, the counter series with `code="500"` is the one
that grows, and the request record of `logMiddleware` says 500 too. -/
theorem recorded_status_counterexample :
    sentStatus (serveWith (Prog.handler fun _ => Prog.ofCalls
        [Call.write (Payload.text "part"), Call.writeHeader 500])).w.calls = 200 ∧
      (serveWith (Prog.handler fun _ => Prog.ofCalls
        [Call.write (Payload.text "part"), Call.writeHeader 500])).proc.reqTotal
          "/x" "500" = 1 ∧
      (serveWith (Prog.handler fun _ => Prog.ofCalls
        [Call.write (Payload.text "part"), Call.writeHeader 500])).proc.reqTotal
          "/x" "200" = 0 := by
  decide

/-- What the connection does with codes that are not final: an interim code
is counted although 200 is sent, and a code outside 100..999 makes
`WriteHeader` panic, so that nothing is counted. -/
theorem recorded_status_other_codes :
    sentStatus (serveWith (Prog.handler fun _ => Prog.ofCalls
        [Call.writeHeader 103, Call.write (Payload.text "x")])).w.calls = 200 ∧
      (serveWith (Prog.handler fun _ => Prog.ofCalls
        [Call.writeHeader 103, Call.write (Payload.text "x")])).proc.reqTotal "/x" "103" = 1 ∧
      (serveWith (Prog.handler fun _ => Prog.ofCalls
        [Call.writeHeader 0])).outcome = Outcome.panicked ∧
      (serveWith (Prog.handler fun _ => Prog.ofCalls
        [Call.writeHeader 0])).proc.reqTotal "/x" "0" = 0 := by
  decide

/-! ## `burnCPU` -/

theorem mixStep_lt (x : Nat) : mixStep x < 2 ^ 64 := by
  unfold mixStep
  have h1 : (x * 1664525 + 1013904223) % 2 ^ 64 < 2 ^ 64 := Nat.mod_lt _ (by norm_num)
  simp only []
  split_ifs
  · exact Nat.xor_lt_two_pow h1 (Nat.mod_lt _ (by norm_num))
  · exact h1

theorem burnLoop_spec (clock : Nat → Int) (dl : Int) (fuel t x t1 x1 : Nat)
    (h : burnLoop clock dl fuel t x = some (t1, x1)) :
    t + 1 ≤ t1 ∧ dl ≤ clock (t1 - 1) ∧ ∀ i, t ≤ i → i + 1 < t1 → clock i < dl := by
  induction fuel generalizing t x with
  | zero => simp [burnLoop] at h
  | succ n ih =>
    unfold burnLoop at h
    by_cases hc : clock t < dl
    · rw [if_pos hc] at h
      obtain ⟨h1, h2, h3⟩ := ih (t + 1) (mixStep x) h
      refine ⟨by omega, h2, ?_⟩
      intro i hi hlt
      rcases Nat.eq_or_lt_of_le hi with rfl | hgt
      · exact hc
      · exact h3 i hgt hlt
    · rw [if_neg hc] at h
      simp only [Option.some.injEq, Prod.mk.injEq] at h
      obtain ⟨rfl, rfl⟩ := h
      refine ⟨le_refl _, ?_, ?_⟩
      · simpa using hc
      · intro i hi hlt
        omega

theorem burnLoop_accumulator (clock : Nat → Int) (dl : Int) (fuel t x y : Nat) :
    (burnLoop clock dl fuel t x).map Prod.fst = (burnLoop clock dl fuel t y).map Prod.fst := by
  induction fuel generalizing t x y with
  | zero => rfl
  | succ n ih =>
    unfold burnLoop
    by_cases hc : clock t < dl
    · rw [if_pos hc, if_pos hc]
      exact ih (t + 1) (mixStep x) (mixStep y)
    · rw [if_neg hc, if_neg hc]
      rfl

theorem burnLoop_returns (clock : Nat → Int) (dl : Int) (n t x : Nat)
    (h : dl ≤ clock (t + n)) : ∃ t1 x1, burnLoop clock dl (n + 1) t x = some (t1, x1) := by
  induction n generalizing t x with
  | zero =>
    refine ⟨t + 1, x, ?_⟩
    unfold burnLoop
    rw [if_neg (by simpa using h)]
  | succ m ih =>
    unfold burnLoop
    by_cases hc : clock t < dl
    · rw [if_pos hc]
      exact ih (t + 1) (mixStep x) (by rw [show t + 1 + m = t + (m + 1) by omega]; exact h)
    · rw [if_neg hc]
      exact ⟨t + 1, x, rfl⟩

theorem burnCPU_some (d : Int) (fuel : Nat) (s s1 : Proc) (h : burnCPU d fuel s = some s1) :
    s1 = { s with tick := s1.tick } ∧ s.tick + 2 ≤ s1.tick ∧
      s.clock s.tick + d ≤ s.clock (s1.tick - 1) := by
  unfold burnCPU at h
  cases hl : burnLoop s.clock (s.clock s.tick + d) fuel (s.tick + 1) 1 with
  | none => simp [hl] at h
  | some a =>
    obtain ⟨t1, x1⟩ := a
    simp only [hl, Option.some.injEq] at h
    subst h
    obtain ⟨h1, h2, -⟩ := burnLoop_spec _ _ _ _ _ _ _ hl
    exact ⟨rfl, by simpa using h1, h2⟩

theorem burnCPU_returns (d : Int) (n : Nat) (s : Proc)
    (h : s.clock s.tick + d ≤ s.clock (s.tick + 1 + n)) :
    ∃ s1, burnCPU d (n + 1) s = some s1 := by
  obtain ⟨t1, x1, hl⟩ := burnLoop_returns s.clock (s.clock s.tick + d) n (s.tick + 1) 1 h
  exact ⟨{ s with tick := t1 }, by simp [burnCPU, hl]⟩

/-- C9. With a non-decreasing clock, for every duration `d`: when `burnCPU(d)`
returns, the reading that ended its loop, and every later one, is at least
`d` after the reading taken on entry; it does return once some reading is
that late; the tests of the loop condition do not depend on the accumulator,
which stays below 2^64; and the duration `instrument` observes for `/work/cpu` is at least 1200 ms,
observed whenever the clock gets 1200 ms past the first reading of the
loop. -/
theorem burnCPU_lower_bound (d : Int) (s : Proc) (hmono : Monotone s.clock) :
    (∀ fuel s1, burnCPU d fuel s = some s1 →
      s.tick + 2 ≤ s1.tick ∧ ∀ i, s1.tick - 1 ≤ i → d ≤ s.clock i - s.clock s.tick) ∧
    (∀ n, s.clock s.tick + d ≤ s.clock (s.tick + 1 + n) →
      ∃ s1, burnCPU d (n + 1) s = some s1) ∧
    (∀ dl fuel t x y,
      (burnLoop s.clock dl fuel t x).map Prod.fst =
        (burnLoop s.clock dl fuel t y).map Prod.fst) ∧
    (∀ fuel w r,
      (instrument "/work/cpu" (workCpuInner fuel) w r s).outcome = Outcome.returned →
      ∃ dur : Int,
        (instrument "/work/cpu" (workCpuInner fuel) w r s).proc.reqLatency "/work/cpu" =
          s.reqLatency "/work/cpu" ++ [dur] ∧ 1200000000 ≤ dur) ∧
    (∀ n w r, s.clock (s.tick + 1) + 1200000000 ≤ s.clock (s.tick + 2 + n) →
      (instrument "/work/cpu" (workCpuInner (n + 1)) w r s).outcome = Outcome.returned) ∧
    (∀ x, mixStep x < 2 ^ 64) := by
  refine ⟨?_, fun n h => burnCPU_returns d n s h,
    fun dl fuel t x y => burnLoop_accumulator s.clock dl fuel t x y, ?_, ?_, mixStep_lt⟩
  · intro fuel s1 h
    obtain ⟨-, h2, h3⟩ := burnCPU_some d fuel s s1 h
    refine ⟨h2, fun i hi => ?_⟩
    have := hmono hi
    linarith
  · intro fuel w r hout
    rw [instrument_outcome] at hout
    rw [instrument_returned _ _ _ _ _ hout]
    cases hb : burnCPU 1200000000 fuel s.now.2 with
    | none =>
      simp [workCpuInner, hb] at hout
    | some s0 =>
      obtain ⟨h1, h2, h3⟩ := burnCPU_some _ _ _ _ hb
      have hproc : (workCpuInner fuel (Writer.resp w 200) r s.now.2).proc = s0.now.2 := by
        simp [workCpuInner, hb]
      refine ⟨(workCpuInner fuel (Writer.resp w 200) r s.now.2).proc.now.1 - s.now.1, ?_, ?_⟩
      · show observe (workCpuInner fuel (Writer.resp w 200) r s.now.2).proc.reqLatency
          "/work/cpu" _ "/work/cpu" = _
        rw [hproc, h1]
        simp [observe, Proc.now]
      · rw [hproc, h1]
        simp only [Proc.now] at h2 h3 ⊢
        have e1 : s.clock s.tick ≤ s.clock (s.tick + 1) := hmono (by omega)
        have e2 : s.clock (s0.tick - 1) ≤ s.clock (s0.tick + 1) := hmono (by omega)
        linarith
  · intro n w r h
    rw [instrument_outcome]
    obtain ⟨s1, hb⟩ := burnCPU_returns 1200000000 n s.now.2
      (by simpa [Proc.now, show s.tick + 1 + 1 + n = s.tick + 2 + n by omega] using h)
    simp [workCpuInner, hb]

theorem burnCPU_lower_bound_witness :
    Monotone (Proc.init fun n => 700000000 * (n : Int)).clock ∧
      ∃ dur : Int,
        (instrument "/work/cpu" (workCpuInner 3) (Writer.conn true []) ⟨"/work/cpu", "GET"⟩
          (Proc.init fun n => 700000000 * (n : Int))).proc.reqLatency "/work/cpu" =
          (Proc.init fun n => 700000000 * (n : Int)).reqLatency "/work/cpu" ++ [dur] ∧
        1200000000 ≤ dur :=
  have hm : Monotone (Proc.init fun n => 700000000 * (n : Int)).clock := by
    intro a b hab
    show 700000000 * (a : Int) ≤ 700000000 * (b : Int)
    have : (a : Int) ≤ (b : Int) := by exact_mod_cast hab
    linarith
  ⟨hm, (burnCPU_lower_bound 1200000000 (Proc.init fun n => 700000000 * (n : Int)) hm).2.2.2.1
    3 (Writer.conn true []) ⟨"/work/cpu", "GET"⟩ (by decide)⟩

/-! ## Shutdown -/

theorem Sys.run_append (st : Sys) (a b : List Event) : st.run (a ++ b) = (st.run a).run b := by
  simp [Sys.run, List.foldl_append]

theorem Sys.run_concat (st : Sys) (a : List Event) (ev : Event) :
    st.run (a ++ [ev]) = (st.run a).step ev := by
  simp [Sys.run, List.foldl_append]

/-- A statement of the main goroutine leaves `ready` alone or stores 0. -/
theorem Sys.mainStep_ready (st : Sys) (e : Bool) :
    (st.mainStep e).proc.ready = st.proc.ready ∨ (st.mainStep e).proc.ready = 0 := by
  unfold Sys.mainStep
  cases st.pc
  case inShutdown => cases e <;> exact Or.inl rfl
  case storeReady => exact Or.inr rfl
  all_goals exact Or.inl rfl

theorem Sys.step_main_ready (st : Sys) (e : Bool) :
    (st.step (Event.main e)).proc.ready = st.proc.ready ∨
      (st.step (Event.main e)).proc.ready = 0 := by
  unfold Sys.step
  cases st.proc.exited with
  | some n => exact Or.inl rfl
  | none => exact Sys.mainStep_ready st e

theorem Sys.step_keeps_cleared (st : Sys) (ev : Event) (h0 : st.proc.ready = 0)
    (hev : ∀ fuel r, ev = Event.request fuel r → r.path ≠ "/recover/ready") :
    (st.step ev).proc.ready = 0 := by
  cases he : st.proc.exited with
  | some n => rw [Sys.step_dead st ev n he]; exact h0
  | none =>
    cases ev with
    | signal =>
      have : (st.step Event.signal).proc = st.proc := by
        simp only [Sys.step, he]
        cases st.pc <;> rfl
      rw [this]; exact h0
    | main e =>
      rcases Sys.step_main_ready st e with h | h
      · rw [h]; exact h0
      · exact h
    | request fuel r =>
      have hr := hev fuel r rfl
      have : (st.step (Event.request fuel r)).proc = (serve fuel r st.proc).proc := by
        simp only [Sys.step, he]
      rw [this, serve_ready fuel r _ he]
      by_cases hf : r.path = "/fail/ready"
      · simp [hf]
      · simp [hf, hr, h0]

theorem Sys.run_keeps_cleared (post : List Event) (st : Sys) (h0 : st.proc.ready = 0)
    (hpost : ∀ fuel r, Event.request fuel r ∈ post → r.path ≠ "/recover/ready") :
    (st.run post).proc.ready = 0 := by
  induction post generalizing st with
  | nil => exact h0
  | cons ev rest ih =>
    show ((st.step ev).run rest).proc.ready = 0
    apply ih
    · exact Sys.step_keeps_cleared st ev h0 (fun fuel r h => hpost fuel r (by simp [h]))
    · intro fuel r hm
      exact hpost fuel r (by simp [hm])

/-- How one event moves the main goroutine. -/
theorem Sys.step_pc (st : Sys) (ev : Event) :
    ((st.step ev).pc.late = true →
      st.pc.late = true ∨
        (st.pc = MainPc.storeReady ∧ st.proc.exited = none ∧ ∃ e, ev = Event.main e)) ∧
    ((st.step ev).shutdownRequested = true →
      st.shutdownRequested = true ∨ (st.step ev).pc.late = true) := by
  cases he : st.proc.exited with
  | some n =>
    rw [Sys.step_dead st ev n he]
    exact ⟨fun h => Or.inl h, fun h => Or.inl h⟩
  | none =>
    cases ev with
    | signal =>
      simp only [Sys.step, he]
      cases hpc : st.pc <;> simp [MainPc.late, hpc]
    | request fuel r =>
      simp only [Sys.step, he]
      exact ⟨fun h => Or.inl h, fun h => Or.inl h⟩
    | main e =>
      simp only [Sys.step, he, Sys.mainStep]
      cases hpc : st.pc <;> cases e <;> simp [MainPc.late, hpc]

/-- The call `srv.Shutdown` has been made only if the main goroutine is past the
store. -/
theorem Sys.requested_late (clock : Nat → Int) (evs : List Event)
    (h : ((Sys.init clock).run evs).shutdownRequested = true) :
    ((Sys.init clock).run evs).pc.late = true := by
  induction evs using List.reverseRecOn with
  | nil => simp [Sys.run, Sys.init] at h
  | append_singleton a ev ih =>
    rw [Sys.run_concat] at h ⊢
    rcases (Sys.step_pc _ ev).2 h with h1 | h1
    · have hl := ih h1
      cases he : ((Sys.init clock).run a).proc.exited with
      | some n => rw [Sys.step_dead _ ev n he]; exact hl
      | none =>
        cases ev with
        | signal =>
          simp only [Sys.step, he]
          cases hpc : ((Sys.init clock).run a).pc <;> simp_all [MainPc.late]
        | request fuel r => simpa only [Sys.step, he] using hl
        | main e =>
          simp only [Sys.step, he, Sys.mainStep]
          cases hpc : ((Sys.init clock).run a).pc <;> cases e <;> simp_all [MainPc.late]
    · exact h1

/-- Being past the store means the store was an earlier step. -/
theorem Sys.late_split (clock : Nat → Int) (evs : List Event)
    (h : ((Sys.init clock).run evs).pc.late = true) :
    ∃ pre e post, evs = pre ++ Event.main e :: post ∧
      ((Sys.init clock).run pre).pc = MainPc.storeReady ∧
      ((Sys.init clock).run pre).proc.exited = none := by
  induction evs using List.reverseRecOn with
  | nil => simp [Sys.run, Sys.init, MainPc.late] at h
  | append_singleton a ev ih =>
    rw [Sys.run_concat] at h
    rcases (Sys.step_pc _ ev).1 h with h1 | ⟨h1, h2, e, rfl⟩
    · obtain ⟨pre, e, post, rfl, hp, hx⟩ := ih h1
      exact ⟨pre, e, post ++ [ev], by simp, hp, hx⟩
    · exact ⟨a, e, [], rfl, h1, h2⟩

/-- C7. In every run of the server in which `srv.Shutdown` has been called,
the main goroutine stored 0 in `ready` at an earlier step, at which Shutdown
had not yet been called; if no `/recover/ready` request was served after that
store, `ready` is 0 and a `/readyz` request answers 503 "not-ready" as long as
the process lives. No statement of the main goroutine stores another value
than 0 in `ready`. -/
theorem shutdown_ordering (clock : Nat → Int) (evs : List Event) :
    (((Sys.init clock).run evs).shutdownRequested = true →
      ∃ pre e post, evs = pre ++ Event.main e :: post ∧
        ((Sys.init clock).run pre).pc = MainPc.storeReady ∧
        ((Sys.init clock).run pre).shutdownRequested = false ∧
        ((Sys.init clock).run (pre ++ [Event.main e])).proc.ready = 0 ∧
        ((∀ fuel r, Event.request fuel r ∈ post → r.path ≠ "/recover/ready") →
          ((Sys.init clock).run evs).proc.ready = 0 ∧
          (((Sys.init clock).run evs).proc.exited = none →
            ∀ fuel rq, rq.path = "/readyz" →
              (serve fuel rq ((Sys.init clock).run evs).proc).response =
                some ⟨503, [Payload.text "not-ready"]⟩))) ∧
    (∀ (st : Sys) (e : Bool),
      (st.step (Event.main e)).proc.ready = st.proc.ready ∨
        (st.step (Event.main e)).proc.ready = 0) := by
  refine ⟨?_, Sys.step_main_ready⟩
  intro hreq
  obtain ⟨pre, e, post, rfl, hpc, halive⟩ :=
    Sys.late_split clock evs (Sys.requested_late clock evs hreq)
  have hnot : ((Sys.init clock).run pre).shutdownRequested = false := by
    by_contra hc
    have := Sys.requested_late clock pre (by simpa using hc)
    rw [hpc] at this
    simp [MainPc.late] at this
  have hstore : ((Sys.init clock).run (pre ++ [Event.main e])).proc.ready = 0 := by
    rw [Sys.run_concat]
    simp [Sys.step, halive, Sys.mainStep, hpc]
  refine ⟨pre, e, post, rfl, hpc, hnot, hstore, ?_⟩
  intro hpost
  have hfin : ((Sys.init clock).run (pre ++ Event.main e :: post)).proc.ready = 0 := by
    have : pre ++ Event.main e :: post = (pre ++ [Event.main e]) ++ post := by simp
    rw [this, Sys.run_append]
    exact Sys.run_keeps_cleared post _ hstore hpost
  refine ⟨hfin, ?_⟩
  intro hlive fuel rq hrq
  rw [serve_readyz fuel rq _ hrq hlive, hfin]
  simp

theorem shutdown_ordering_witness :
    ((Sys.init fun n => n).run [Event.signal, Event.main false, Event.main false,
        Event.main false]).shutdownRequested = true ∧
      ∃ pre e post,
        [Event.signal, Event.main false, Event.main false, Event.main false] =
          pre ++ Event.main e :: post ∧
        ((Sys.init fun n => n).run pre).pc = MainPc.storeReady ∧
        ((Sys.init fun n => n).run pre).shutdownRequested = false ∧
        ((Sys.init fun n => n).run (pre ++ [Event.main e])).proc.ready = 0 ∧
        ((∀ fuel r, Event.request fuel r ∈ post → r.path ≠ "/recover/ready") →
          ((Sys.init fun n => n).run [Event.signal, Event.main false, Event.main false,
            Event.main false]).proc.ready = 0 ∧
          (((Sys.init fun n => n).run [Event.signal, Event.main false, Event.main false,
              Event.main false]).proc.exited = none →
            ∀ fuel rq, rq.path = "/readyz" →
              (serve fuel rq ((Sys.init fun n => n).run [Event.signal, Event.main false,
                Event.main false, Event.main false]).proc).response =
                some ⟨503, [Payload.text "not-ready"]⟩)) :=
  ⟨rfl, (shutdown_ordering (fun n => n)
    [Event.signal, Event.main false, Event.main false, Event.main false]).1 rfl⟩

end SreMini
